import Mathlib

/-!
# Canvas controller: `Canvas::Impl` of src/renderer/tvgCanvas.h

A shallow embedding of the controller and of the properties stated for it.

* The controller's own fields (`paints`, `renderer`, `status`, `refresh`) are the
  structure `Impl`.
* Everything the controller calls but does not implement (the rendering backend
  and the paints) lives outside of it.  What these collaborators answer is given
  by an `Env`; what was asked of them, and their reference counters, is kept in
  a `World` that every operation threads through.
* A call through a null `renderer` pointer has no defined result; the operations
  that make such a call (`Impl`, `draw`, `sync`) return an `Option`.
-/

namespace Canvas

/-- Status of the controller: `enum Status : uint8_t {Synced = 0, Updating, Drawing}`. -/
inductive Status where
  | Synced
  | Updating
  | Drawing
  deriving DecidableEq, Repr

/-- Result codes the controller returns (the values of `Result` that tvgCanvas.h uses). -/
inductive Result where
  | Success
  | InsufficientCondition
  | MemoryCorruption
  deriving DecidableEq, Repr

/-- Update flags the controller hands to a paint (the values of `RenderUpdateFlag`
that tvgCanvas.h uses). -/
inductive RenderUpdateFlag where
  | None
  | All
  deriving DecidableEq, Repr

/-- A non-null `Paint*`: the address of a paint object. -/
abbrev Paint := Nat

/-- A non-null `RenderMethod*`: the address of a backend object. -/
abbrev RenderMethod := Nat

/-- One call made by the controller on a collaborator, or one destruction of a
collaborator. -/
inductive Event where
  | rendererRef
  | rendererUnref
  | rendererDelete
  | rendererClear
  | preRender
  | postRender
  | rendererSync
  | paintRef (p : Paint)
  | paintUnref (p : Paint)
  | paintDelete (p : Paint)
  | paintUpdate (p : Paint) (opacity : Nat) (flag : RenderUpdateFlag)
  | paintRender (p : Paint)
  deriving DecidableEq, Repr

/-- Answers of the collaborators.  Each boolean hook may answer differently at
every call: its answer is a function of all the calls made so far. -/
structure Env where
  /-- Answer of `renderer->clear()`. -/
  clear : List Event → Bool
  /-- Answer of `renderer->preRender()`. -/
  preRender : List Event → Bool
  /-- Answer of `renderer->postRender()`. -/
  postRender : List Event → Bool
  /-- Answer of `renderer->sync()`. -/
  sync : List Event → Bool
  /-- Answer of `paint->pImpl->render(renderer)`. -/
  render : Paint → List Event → Bool

/-- State of the collaborators: the calls made so far, oldest first, and the
reference counters of the paints and of the backend. -/
structure World where
  trace : List Event
  paintRefCnt : Paint → Nat
  rendererRefCnt : Nat

/-- Record one call at the end of the trace. -/
def World.log (w : World) (e : Event) : World :=
  { w with trace := w.trace ++ [e] }

/-- Modelled from the spec: `Paint::Impl::ref()` of tvgPaint.h, which is not among
the sources; it increments the paint's reference counter. -/
def World.refPaint (w : World) (p : Paint) : World :=
  { trace := w.trace ++ [Event.paintRef p]
    paintRefCnt := fun q => if q = p then w.paintRefCnt q + 1 else w.paintRefCnt q
    rendererRefCnt := w.rendererRefCnt }

/-- Modelled from the spec: `Paint::Impl::unref()` of tvgPaint.h, which is not
among the sources; it decrements the paint's reference counter and returns the
new count. -/
def World.unrefPaint (w : World) (p : Paint) : Nat × World :=
  (w.paintRefCnt p - 1,
   { trace := w.trace ++ [Event.paintUnref p]
     paintRefCnt := fun q => if q = p then w.paintRefCnt q - 1 else w.paintRefCnt q
     rendererRefCnt := w.rendererRefCnt })

/-- Modelled from the spec: `RenderMethod::ref()` of tvgRender.h, which is not
among the sources; it increments the backend's reference counter. -/
def World.refRenderer (w : World) : World :=
  { trace := w.trace ++ [Event.rendererRef]
    paintRefCnt := w.paintRefCnt
    rendererRefCnt := w.rendererRefCnt + 1 }

/-- Modelled from the spec: `RenderMethod::unref()` of tvgRender.h, which is not
among the sources; it decrements the backend's reference counter and returns the
new count. -/
def World.unrefRenderer (w : World) : Nat × World :=
  (w.rendererRefCnt - 1,
   { trace := w.trace ++ [Event.rendererUnref]
     paintRefCnt := w.paintRefCnt
     rendererRefCnt := w.rendererRefCnt - 1 })

/-- The fields of `struct Canvas::Impl`.  `renderer` is a pointer: `none` is
`nullptr`. -/
structure Impl where
  paints : List Paint
  renderer : Option RenderMethod
  status : Status
  refresh : Bool
  deriving DecidableEq, Repr

/-- Constructor `Impl(RenderMethod* pRenderer)`: the fields take their default
values and `renderer->ref()` is called, which has no result on a null pointer. -/
def Impl.ctor (pRenderer : Option RenderMethod) (w : World) : Option (Impl × World) :=
  match pRenderer with
  | none => none
  | some r =>
    some ({ paints := [], renderer := some r, status := Status.Synced, refresh := false },
          w.refRenderer)

/-- The loop of `clearPaints`: `if (P(paint)->unref() == 0) delete(paint);` for
every paint of the list, first to last. -/
def clearPaintsLoop : List Paint → World → World
  | [], w => w
  | paint :: rest, w =>
    clearPaintsLoop rest
      (if (w.unrefPaint paint).1 = 0 then (w.unrefPaint paint).2.log (Event.paintDelete paint)
       else (w.unrefPaint paint).2)

/-- Function `clearPaints()`: release every paint, then `paints.clear()`. -/
def Impl.clearPaints (s : Impl) (w : World) : Impl × World :=
  ({ s with paints := [] }, clearPaintsLoop s.paints w)

/-- The loop of `update` over the whole list:
`paint->pImpl->update(renderer, nullptr, clips, 255, flag)` for every paint, first
to last. -/
def updateLoop (flag : RenderUpdateFlag) : List Paint → World → World
  | [], w => w
  | paint :: rest, w => updateLoop flag rest (w.log (Event.paintUpdate paint 255 flag))

/-- Function `update(Paint* paint, bool force)`; `paint = none` is a null pointer. -/
def Impl.update (s : Impl) (w : World) (paint : Option Paint) (force : Bool) :
    Result × Impl × World :=
  if s.paints = [] ∨ s.status = Status.Drawing then (Result.InsufficientCondition, s, w)
  else
    match paint with
    | some p =>
      (Result.Success, { s with status := Status.Updating },
        w.log (Event.paintUpdate p 255
          (if s.refresh = true ∨ force = true then RenderUpdateFlag.All else RenderUpdateFlag.None)))
    | none =>
      (Result.Success, { s with refresh := false, status := Status.Updating },
        updateLoop
          (if s.refresh = true ∨ force = true then RenderUpdateFlag.All else RenderUpdateFlag.None)
          s.paints w)

/-- Function `push(unique_ptr<Paint> paint)`; `paint = none` is an empty pointer.
On the early return for `Drawing` the parameter still owns the paint, so the
paint is destroyed when the parameter goes out of scope. -/
def Impl.push (s : Impl) (w : World) (paint : Option Paint) : Result × Impl × World :=
  if s.status = Status.Drawing then
    (Result.InsufficientCondition, s,
      match paint with
      | some p => w.log (Event.paintDelete p)
      | none => w)
  else
    match paint with
    | none => (Result.MemoryCorruption, s, w)
    | some p => Impl.update { s with paints := s.paints ++ [p] } (w.refPaint p) (some p) true

/-- The buffer part of `clear`: `if (buffer) { if (!renderer || !renderer->clear()) return ...; }`.
The boolean tells whether `clear` goes on. -/
def clearBuffer (env : Env) (s : Impl) (w : World) (buffer : Bool) : Bool × World :=
  if buffer = true then
    match s.renderer with
    | none => (false, w)
    | some _ => (env.clear w.trace, w.log Event.rendererClear)
  else (true, w)

/-- Function `clear(bool paints, bool buffer)`. -/
def Impl.clear (env : Env) (s : Impl) (w : World) (paints buffer : Bool) :
    Result × Impl × World :=
  if s.status = Status.Drawing then (Result.InsufficientCondition, s, w)
  else if (clearBuffer env s w buffer).1 = false then
    (Result.InsufficientCondition, s, (clearBuffer env s w buffer).2)
  else if paints = true then
    (Result.Success, (s.clearPaints (clearBuffer env s w buffer).2).1,
      (s.clearPaints (clearBuffer env s w buffer).2).2)
  else (Result.Success, s, (clearBuffer env s w buffer).2)

/-- Function `needRefresh()`. -/
def Impl.needRefresh (s : Impl) : Impl :=
  { s with refresh := true }

/-- The loop of `draw`: `if (paint->pImpl->render(renderer)) rendered = true;` for
every paint, first to last. -/
def renderLoop (env : Env) : List Paint → Bool → World → Bool × World
  | [], rendered, w => (rendered, w)
  | paint :: rest, rendered, w =>
    renderLoop env rest (if env.render paint w.trace = true then true else rendered)
      (w.log (Event.paintRender paint))

/-- Function `draw()`.  With a null `renderer`, `renderer->preRender()` has no
result. -/
def Impl.draw (env : Env) (s : Impl) (w : World) : Option (Result × Impl × World) :=
  if s.status = Status.Drawing ∨ s.paints = [] then some (Result.InsufficientCondition, s, w)
  else
    match s.renderer with
    | none => none
    | some _ =>
      if env.preRender w.trace = false then
        some (Result.InsufficientCondition, s, w.log Event.preRender)
      else if (renderLoop env s.paints false (w.log Event.preRender)).1 = false then
        some (Result.InsufficientCondition, s,
          (renderLoop env s.paints false (w.log Event.preRender)).2)
      else if env.postRender (renderLoop env s.paints false (w.log Event.preRender)).2.trace
          = false then
        some (Result.InsufficientCondition, s,
          (renderLoop env s.paints false (w.log Event.preRender)).2.log Event.postRender)
      else
        some (Result.Success, { s with status := Status.Drawing },
          (renderLoop env s.paints false (w.log Event.preRender)).2.log Event.postRender)

/-- Function `sync()`.  With a null `renderer`, `renderer->sync()` has no result. -/
def Impl.sync (env : Env) (s : Impl) (w : World) : Option (Result × Impl × World) :=
  if s.status = Status.Synced then some (Result.InsufficientCondition, s, w)
  else
    match s.renderer with
    | none => none
    | some _ =>
      if env.sync w.trace = true then
        some (Result.Success, { s with status := Status.Synced }, w.log Event.rendererSync)
      else some (Result.InsufficientCondition, s, w.log Event.rendererSync)

/-- Destructor `~Impl()`: `if (renderer) renderer->sync();` then `clearPaints();`
then `if (renderer && (renderer->unref() == 0)) delete(renderer);`. -/
def Impl.dtor (s : Impl) (w : World) : World :=
  match s.renderer with
  | none => (s.clearPaints w).2
  | some _ =>
    if ((s.clearPaints (w.log Event.rendererSync)).2.unrefRenderer).1 = 0 then
      ((s.clearPaints (w.log Event.rendererSync)).2.unrefRenderer).2.log Event.rendererDelete
    else ((s.clearPaints (w.log Event.rendererSync)).2.unrefRenderer).2

/-! ## Sequences of calls -/

/-- One call of the client on the controller. -/
inductive Op where
  | push (paint : Option Paint)
  | clear (paints buffer : Bool)
  | update (paint : Option Paint) (force : Bool)
  | draw
  | sync
  | needRefresh
  deriving DecidableEq, Repr

/-- Run one call.  The first component is the `Result` the call returns;
`needRefresh` is `void` and returns none.  The whole is `none` when the call has no
defined result. -/
def Impl.step (env : Env) (s : Impl) (w : World) : Op → Option (Option Result × Impl × World)
  | Op.push paint => some (some (s.push w paint).1, (s.push w paint).2.1, (s.push w paint).2.2)
  | Op.clear paints buffer =>
    some (some (s.clear env w paints buffer).1, (s.clear env w paints buffer).2.1,
      (s.clear env w paints buffer).2.2)
  | Op.update paint force =>
    some (some (s.update w paint force).1, (s.update w paint force).2.1,
      (s.update w paint force).2.2)
  | Op.draw => (s.draw env w).map (fun x => (some x.1, x.2.1, x.2.2))
  | Op.sync => (s.sync env w).map (fun x => (some x.1, x.2.1, x.2.2))
  | Op.needRefresh => some (none, s.needRefresh, w)

/-- Run a sequence of calls, first to last, and keep the history: every call with
what it returned. -/
def run (env : Env) : List Op → Impl → World → Option (List (Op × Option Result) × Impl × World)
  | [], s, w => some ([], s, w)
  | op :: rest, s, w =>
    match s.step env w op with
    | none => none
    | some (res, s1, w1) =>
      match run env rest s1 w1 with
      | none => none
      | some (hist, s2, w2) => some ((op, res) :: hist, s2, w2)

/-- Specification side of the paint list, one history entry: a `push` of a paint
that returned `Success` adds the paint at the end, a `clear` asked to clear the
paints that returned `Success` leaves nothing, every other entry changes nothing. -/
def recordPaint (acc : List Paint) : Op × Option Result → List Paint
  | (Op.push (some p), some Result.Success) => acc ++ [p]
  | (Op.clear true _, some Result.Success) => []
  | _ => acc

/-- Specification side of the paint list: the paints successfully pushed since the
last paint-clearing `clear`, in the order they were pushed, read off a history
that starts at a controller without paints. -/
def pushedSinceLastClear (hist : List (Op × Option Result)) : List Paint :=
  hist.foldl recordPaint []

/-! ## Concrete collaborators for the worked instances -/

/-- A backend and paints that accept everything. -/
def envAllTrue : Env :=
  { clear := fun _ => true
    preRender := fun _ => true
    postRender := fun _ => true
    sync := fun _ => true
    render := fun _ _ => true }

/-- Collaborators before any call: empty trace, every reference counter at zero. -/
def world0 : World :=
  { trace := []
    paintRefCnt := fun _ => 0
    rendererRefCnt := 0 }

/-- Collaborators of a controller in use: empty trace, paint 3 held once, every
other paint held twice, the backend held once. -/
def worldHeld : World :=
  { trace := []
    paintRefCnt := fun p => if p = 3 then 1 else 2
    rendererRefCnt := 1 }

/-- A backend that accepts everything, with paints that render nothing visible. -/
def envNoOutput : Env :=
  { clear := fun _ => true
    preRender := fun _ => true
    postRender := fun _ => true
    sync := fun _ => true
    render := fun _ _ => false }

/-! ## Facts about the loops -/

theorem updateLoop_trace (flag : RenderUpdateFlag) (ps : List Paint) (w : World) :
    (updateLoop flag ps w).trace = w.trace ++ ps.map (fun q => Event.paintUpdate q 255 flag) := by
  induction ps generalizing w with
  | nil => simp [updateLoop]
  | cons p rest ih => simp [updateLoop, ih, World.log]

theorem updateLoop_paintRefCnt (flag : RenderUpdateFlag) (ps : List Paint) (w : World) :
    (updateLoop flag ps w).paintRefCnt = w.paintRefCnt := by
  induction ps generalizing w with
  | nil => simp [updateLoop]
  | cons p rest ih => simp [updateLoop, ih, World.log]

theorem updateLoop_rendererRefCnt (flag : RenderUpdateFlag) (ps : List Paint) (w : World) :
    (updateLoop flag ps w).rendererRefCnt = w.rendererRefCnt := by
  induction ps generalizing w with
  | nil => simp [updateLoop]
  | cons p rest ih => simp [updateLoop, ih, World.log]

theorem renderLoop_trace (env : Env) (ps : List Paint) (b : Bool) (w : World) :
    (renderLoop env ps b w).2.trace = w.trace ++ ps.map Event.paintRender := by
  induction ps generalizing b w with
  | nil => simp [renderLoop]
  | cons p rest ih => simp [renderLoop, ih, World.log]

theorem renderLoop_paintRefCnt (env : Env) (ps : List Paint) (b : Bool) (w : World) :
    (renderLoop env ps b w).2.paintRefCnt = w.paintRefCnt := by
  induction ps generalizing b w with
  | nil => simp [renderLoop]
  | cons p rest ih => simp [renderLoop, ih, World.log]

theorem renderLoop_rendererRefCnt (env : Env) (ps : List Paint) (b : Bool) (w : World) :
    (renderLoop env ps b w).2.rendererRefCnt = w.rendererRefCnt := by
  induction ps generalizing b w with
  | nil => simp [renderLoop]
  | cons p rest ih => simp [renderLoop, ih, World.log]

/-- The loop of `draw` ends with `rendered` set exactly when it was set before or
some paint of the list answered `true`, each paint being asked after the paints
before it. -/
theorem renderLoop_rendered (env : Env) (ps : List Paint) (b : Bool) (w : World) :
    (renderLoop env ps b w).1 = true ↔
      b = true ∨ ∃ k, ∃ hk : k < ps.length,
        env.render (ps.get ⟨k, hk⟩) (w.trace ++ (ps.take k).map Event.paintRender) = true := by
  induction ps generalizing b w with
  | nil => simp [renderLoop]
  | cons p rest ih =>
    rw [renderLoop, ih]
    constructor
    · rintro (h | ⟨k, hk, h⟩)
      · by_cases hp : env.render p w.trace = true
        · exact Or.inr ⟨0, by simp, by simpa using hp⟩
        · simp [hp] at h
          exact Or.inl h
      · refine Or.inr ⟨k + 1, by simpa using hk, ?_⟩
        simpa [World.log, List.append_assoc] using h
    · rintro (h | ⟨k, hk, h⟩)
      · left
        simp [h]
      · cases k with
        | zero =>
          left
          have : env.render p w.trace = true := by simpa using h
          simp [this]
        | succ k =>
          right
          refine ⟨k, by simpa using hk, ?_⟩
          simpa [World.log, List.append_assoc] using h

/-! ## The operations while a draw is in flight -/

/-- C1: with `status == Drawing`, `push`, `clear`, `update` and `draw` each return
`InsufficientCondition` and leave the controller (paint list, status, refresh
flag) as it was, for every argument.  `clear`, `update` and `draw` leave the
collaborators untouched; `push` calls no backend hook and no paint update or
render either: the only thing it adds to the trace is the destruction of the
paint it was handed, when it was handed one, and no reference counter moves. -/
theorem C1_drawing_rejects_push_clear_update_draw (env : Env) (s : Impl) (w : World)
    (h : s.status = Status.Drawing) (paint : Option Paint) (cp cb force : Bool) :
    (s.push w paint).1 = Result.InsufficientCondition ∧
    (s.push w paint).2.1 = s ∧
    (s.push w paint).2.2.trace = w.trace ++ paint.toList.map Event.paintDelete ∧
    (s.push w paint).2.2.paintRefCnt = w.paintRefCnt ∧
    (s.push w paint).2.2.rendererRefCnt = w.rendererRefCnt ∧
    s.clear env w cp cb = (Result.InsufficientCondition, s, w) ∧
    s.update w paint force = (Result.InsufficientCondition, s, w) ∧
    s.draw env w = some (Result.InsufficientCondition, s, w) := by
  refine ⟨?_, ?_, ?_, ?_, ?_, ?_, ?_, ?_⟩
  · simp [Impl.push, h]
  · simp [Impl.push, h]
  · cases paint <;> simp [Impl.push, h, World.log]
  · cases paint <;> simp [Impl.push, h, World.log]
  · cases paint <;> simp [Impl.push, h, World.log]
  · simp [Impl.clear, h]
  · simp [Impl.update, h]
  · simp [Impl.draw, h]

/-- C1 at a controller that is drawing two paints, pushing paint 9. -/
theorem C1_drawing_rejects_push_clear_update_draw_witness :
    (Impl.mk [3, 4] (some 1) Status.Drawing true).status = Status.Drawing ∧
    ((Impl.mk [3, 4] (some 1) Status.Drawing true).push world0 (some 9)).1
      = Result.InsufficientCondition ∧
    ((Impl.mk [3, 4] (some 1) Status.Drawing true).push world0 (some 9)).2.1
      = Impl.mk [3, 4] (some 1) Status.Drawing true ∧
    (Impl.mk [3, 4] (some 1) Status.Drawing true).draw envAllTrue world0
      = some (Result.InsufficientCondition, Impl.mk [3, 4] (some 1) Status.Drawing true, world0) :=
  ⟨rfl,
   (C1_drawing_rejects_push_clear_update_draw envAllTrue _ world0 rfl (some 9) true true true).1,
   (C1_drawing_rejects_push_clear_update_draw envAllTrue _ world0 rfl (some 9) true true true).2.1,
   (C1_drawing_rejects_push_clear_update_draw envAllTrue _ world0 rfl (some 9) true true
      true).2.2.2.2.2.2.2⟩

/-! ## The lifecycle -/

/-- C2: from a freshly constructed controller (status `Synced`, no paint, refresh
unset), with a backend whose `preRender`, `postRender` and `sync` succeed and a
paint `A` whose render reports visible output: `push(A)` succeeds, then
`update(none, false)` succeeds and the status is `Updating`, then `draw()`
succeeds and the status is `Drawing`, then `sync()` succeeds and the status is
`Synced`, and a second `sync()` returns `InsufficientCondition` with the status
still `Synced`. -/
theorem C2_full_lifecycle (env : Env) (r : RenderMethod) (w : World) (A : Paint)
    (hpre : ∀ t, env.preRender t = true) (hpost : ∀ t, env.postRender t = true)
    (hsync : ∀ t, env.sync t = true) (hA : ∀ t, env.render A t = true) :
    ∃ s0 w0 s1 w1 s2 w2 s3 w3 s4 w4,
      Impl.ctor (some r) w = some (s0, w0) ∧
      s0.status = Status.Synced ∧ s0.paints = [] ∧ s0.refresh = false ∧
      s0.push w0 (some A) = (Result.Success, s1, w1) ∧
      s1.update w1 none false = (Result.Success, s2, w2) ∧ s2.status = Status.Updating ∧
      s2.draw env w2 = some (Result.Success, s3, w3) ∧ s3.status = Status.Drawing ∧
      s3.sync env w3 = some (Result.Success, s4, w4) ∧ s4.status = Status.Synced ∧
      s4.sync env w4 = some (Result.InsufficientCondition, s4, w4) ∧
      s4.status = Status.Synced := by
  refine ⟨Impl.mk [] (some r) Status.Synced false, w.refRenderer,
    Impl.mk [A] (some r) Status.Updating false,
    (w.refRenderer.refPaint A).log (Event.paintUpdate A 255 RenderUpdateFlag.All),
    Impl.mk [A] (some r) Status.Updating false,
    ((w.refRenderer.refPaint A).log (Event.paintUpdate A 255 RenderUpdateFlag.All)).log
      (Event.paintUpdate A 255 RenderUpdateFlag.None),
    Impl.mk [A] (some r) Status.Drawing false,
    (((((w.refRenderer.refPaint A).log (Event.paintUpdate A 255 RenderUpdateFlag.All)).log
      (Event.paintUpdate A 255 RenderUpdateFlag.None)).log Event.preRender).log
      (Event.paintRender A)).log Event.postRender,
    Impl.mk [A] (some r) Status.Synced false,
    ((((((w.refRenderer.refPaint A).log (Event.paintUpdate A 255 RenderUpdateFlag.All)).log
      (Event.paintUpdate A 255 RenderUpdateFlag.None)).log Event.preRender).log
      (Event.paintRender A)).log Event.postRender).log Event.rendererSync,
    rfl, rfl, rfl, rfl, ?_, ?_, rfl, ?_, rfl, ?_, rfl, ?_, rfl⟩
  · simp [Impl.push, Impl.update]
  · simp [Impl.update, updateLoop]
  · simp [Impl.draw, hpre, hpost, renderLoop, hA]
  · simp [Impl.sync, hsync]
  · simp [Impl.sync]

/-- C2 with the backend and paints that accept everything, backend 1, paint 7. -/
theorem C2_full_lifecycle_witness :
    (∀ t, envAllTrue.preRender t = true) ∧ (∀ t, envAllTrue.render 7 t = true) ∧
    ∃ s0 w0 s1 w1 s2 w2 s3 w3 s4 w4,
      Impl.ctor (some 1) world0 = some (s0, w0) ∧
      s0.status = Status.Synced ∧ s0.paints = [] ∧ s0.refresh = false ∧
      s0.push w0 (some 7) = (Result.Success, s1, w1) ∧
      s1.update w1 none false = (Result.Success, s2, w2) ∧ s2.status = Status.Updating ∧
      s2.draw envAllTrue w2 = some (Result.Success, s3, w3) ∧ s3.status = Status.Drawing ∧
      s3.sync envAllTrue w3 = some (Result.Success, s4, w4) ∧ s4.status = Status.Synced ∧
      s4.sync envAllTrue w4 = some (Result.InsufficientCondition, s4, w4) ∧
      s4.status = Status.Synced :=
  ⟨fun _ => rfl, fun _ => rfl,
   C2_full_lifecycle envAllTrue 1 world0 7 (fun _ => rfl) (fun _ => rfl) (fun _ => rfl)
     (fun _ => rfl)⟩

/-! ## The contract of each operation -/

/-- C3: with a backend attached, `draw()` returns, and it returns `Success` exactly
when the status is not `Drawing`, the paint list is not empty, the backend's
`preRender` succeeds, the render of at least one owned paint returns true (each
paint being rendered after `preRender` and after the paints before it), and the
backend's `postRender` (called after every render) succeeds.  On `Success` the
status becomes `Drawing` and nothing else of the controller changes; in every
other case the result is `InsufficientCondition` and the controller is as it was. -/
theorem C3_draw_success_iff (env : Env) (s : Impl) (w : World) (r : RenderMethod)
    (hr : s.renderer = some r) :
    ∃ res s1 w1, s.draw env w = some (res, s1, w1) ∧
      (res = Result.Success ↔
        (s.status ≠ Status.Drawing ∧ s.paints ≠ [] ∧ env.preRender w.trace = true ∧
         (∃ k, ∃ hk : k < s.paints.length,
            env.render (s.paints.get ⟨k, hk⟩)
              (w.trace ++ [Event.preRender] ++ (s.paints.take k).map Event.paintRender) = true) ∧
         env.postRender (w.trace ++ [Event.preRender] ++ s.paints.map Event.paintRender) = true)) ∧
      (res = Result.Success → s1 = { s with status := Status.Drawing }) ∧
      (res ≠ Result.Success → res = Result.InsufficientCondition ∧ s1 = s) := by
  have hloop := renderLoop_rendered env s.paints false (w.log Event.preRender)
  have htrace := renderLoop_trace env s.paints false (w.log Event.preRender)
  have hlog : (w.log Event.preRender).trace = w.trace ++ [Event.preRender] := rfl
  rw [hlog] at hloop htrace
  unfold Impl.draw
  by_cases h1 : s.status = Status.Drawing ∨ s.paints = []
  · rw [if_pos h1]
    refine ⟨_, _, _, rfl, ?_, by simp, by simp⟩
    constructor
    · intro h
      cases h
    · rintro ⟨ha, hb, -⟩
      rcases h1 with h1 | h1
      · exact absurd h1 ha
      · exact absurd h1 hb
  · have h1a : s.status ≠ Status.Drawing := fun h => h1 (Or.inl h)
    have h1b : s.paints ≠ [] := fun h => h1 (Or.inr h)
    rw [if_neg h1, hr]
    by_cases h2 : env.preRender w.trace = false
    · simp only [if_pos h2]
      refine ⟨_, _, _, rfl, ?_, by simp, by simp⟩
      simp [h2]
    · simp only [if_neg h2]
      have h2t : env.preRender w.trace = true := by simpa using h2
      by_cases h3 : (renderLoop env s.paints false (w.log Event.preRender)).1 = false
      · simp only [if_pos h3]
        refine ⟨_, _, _, rfl, ?_, by simp, by simp⟩
        have h3n : ¬ (renderLoop env s.paints false (w.log Event.preRender)).1 = true := by
          simp [h3]
        rw [hloop] at h3n
        constructor
        · intro h
          cases h
        · rintro ⟨-, -, -, hk, -⟩
          exact absurd (Or.inr hk) h3n
      · simp only [if_neg h3]
        have h3t : (renderLoop env s.paints false (w.log Event.preRender)).1 = true := by
          simpa using h3
        rw [hloop] at h3t
        have hk : ∃ k, ∃ hk : k < s.paints.length,
            env.render (s.paints.get ⟨k, hk⟩)
              (w.trace ++ [Event.preRender] ++ (s.paints.take k).map Event.paintRender) = true := by
          rcases h3t with h | h
          · cases h
          · exact h
        by_cases h4 : env.postRender
            (renderLoop env s.paints false (w.log Event.preRender)).2.trace = false
        · simp only [if_pos h4]
          refine ⟨_, _, _, rfl, ?_, by simp, by simp⟩
          rw [htrace] at h4
          constructor
          · intro h
            cases h
          · rintro ⟨-, -, -, -, h5⟩
            rw [h4] at h5
            cases h5
        · simp only [if_neg h4]
          refine ⟨_, _, _, rfl, ?_, by simp, by simp⟩
          rw [htrace] at h4
          have h4t : env.postRender
              (w.trace ++ [Event.preRender] ++ s.paints.map Event.paintRender) = true := by
            simpa using h4
          simp only [true_iff]
          exact ⟨h1a, h1b, h2t, hk, h4t⟩

/-- C3 at a controller in status `Updating` holding paints 3 and 4, with a
backend and paints that accept everything. -/
theorem C3_draw_success_iff_witness :
    (Impl.mk [3, 4] (some 1) Status.Updating false).renderer = some 1 ∧
    ∃ res s1 w1,
      (Impl.mk [3, 4] (some 1) Status.Updating false).draw envAllTrue world0
        = some (res, s1, w1) ∧
      (res = Result.Success ↔
        ((Impl.mk [3, 4] (some 1) Status.Updating false).status ≠ Status.Drawing ∧
         (Impl.mk [3, 4] (some 1) Status.Updating false).paints ≠ [] ∧
         envAllTrue.preRender world0.trace = true ∧
         (∃ k, ∃ hk : k < (Impl.mk [3, 4] (some 1) Status.Updating false).paints.length,
            envAllTrue.render ((Impl.mk [3, 4] (some 1) Status.Updating false).paints.get ⟨k, hk⟩)
              (world0.trace ++ [Event.preRender] ++
                ((Impl.mk [3, 4] (some 1) Status.Updating false).paints.take k).map
                  Event.paintRender) = true) ∧
         envAllTrue.postRender (world0.trace ++ [Event.preRender] ++
           (Impl.mk [3, 4] (some 1) Status.Updating false).paints.map Event.paintRender)
             = true)) ∧
      (res = Result.Success →
        s1 = { Impl.mk [3, 4] (some 1) Status.Updating false with status := Status.Drawing }) ∧
      (res ≠ Result.Success →
        res = Result.InsufficientCondition ∧
          s1 = Impl.mk [3, 4] (some 1) Status.Updating false) :=
  ⟨rfl, C3_draw_success_iff envAllTrue (Impl.mk [3, 4] (some 1) Status.Updating false) world0 1 rfl⟩

/-- C4: for every controller, paint argument and force value, `update` returns
`Success` exactly when the paint list is not empty and the status is not
`Drawing`.  On `Success` the status is `Updating` and the paint list is
unchanged, whether one paint or the whole scene is updated; otherwise the result
is `InsufficientCondition`, the controller is as it was and no paint is updated
(the collaborators are untouched). -/
theorem C4_update_success_iff (s : Impl) (w : World) (paint : Option Paint) (force : Bool) :
    ((s.update w paint force).1 = Result.Success ↔
      (s.paints ≠ [] ∧ s.status ≠ Status.Drawing)) ∧
    ((s.update w paint force).1 = Result.Success →
      (s.update w paint force).2.1.status = Status.Updating ∧
      (s.update w paint force).2.1.paints = s.paints ∧
      (s.update w paint force).2.1.renderer = s.renderer) ∧
    ((s.update w paint force).1 ≠ Result.Success →
      s.update w paint force = (Result.InsufficientCondition, s, w)) := by
  unfold Impl.update
  by_cases h : s.paints = [] ∨ s.status = Status.Drawing
  · rw [if_pos h]
    refine ⟨?_, by simp, by simp⟩
    constructor
    · intro h0
      cases h0
    · rintro ⟨ha, hb⟩
      rcases h with h | h
      · exact absurd h ha
      · exact absurd h hb
  · rw [if_neg h]
    have ha : s.paints ≠ [] := fun e => h (Or.inl e)
    have hb : s.status ≠ Status.Drawing := fun e => h (Or.inr e)
    cases paint <;> simp [ha, hb]

/-- C5: with a backend attached, `sync()` returns, and it returns `Success` exactly
when the status is not `Synced` and the backend's `sync` succeeds; the status
is then `Synced` and nothing else of the controller changes.  Otherwise the
result is `InsufficientCondition` and the controller (paint list, status,
refresh) is as it was.  When the status is already `Synced` the backend's
`sync` is not called: the collaborators are untouched. -/
theorem C5_sync_success_iff (env : Env) (s : Impl) (w : World) (r : RenderMethod)
    (hr : s.renderer = some r) :
    (∃ res s1 w1, s.sync env w = some (res, s1, w1) ∧
      (res = Result.Success ↔ (s.status ≠ Status.Synced ∧ env.sync w.trace = true)) ∧
      (res = Result.Success → s1 = { s with status := Status.Synced }) ∧
      (res ≠ Result.Success → res = Result.InsufficientCondition ∧ s1 = s)) ∧
    (s.status = Status.Synced → s.sync env w = some (Result.InsufficientCondition, s, w)) := by
  unfold Impl.sync
  by_cases h : s.status = Status.Synced
  · rw [if_pos h]
    refine ⟨⟨_, _, _, rfl, ?_, by simp, by simp⟩, fun _ => rfl⟩
    simp [h]
  · rw [if_neg h, hr]
    refine ⟨?_, fun e => absurd e h⟩
    by_cases h2 : env.sync w.trace = true
    · simp only [if_pos h2]
      exact ⟨_, _, _, rfl, by simp [h, h2], by simp, by simp⟩
    · simp only [if_neg h2]
      exact ⟨_, _, _, rfl, by simp [h2], by simp, by simp⟩

/-- C5 at a controller in status `Drawing` whose backend accepts the sync. -/
theorem C5_sync_success_iff_witness :
    (Impl.mk [3, 4] (some 1) Status.Drawing false).renderer = some 1 ∧
    (∃ res s1 w1,
      (Impl.mk [3, 4] (some 1) Status.Drawing false).sync envAllTrue world0
        = some (res, s1, w1) ∧
      (res = Result.Success ↔
        ((Impl.mk [3, 4] (some 1) Status.Drawing false).status ≠ Status.Synced ∧
          envAllTrue.sync world0.trace = true)) ∧
      (res = Result.Success →
        s1 = { Impl.mk [3, 4] (some 1) Status.Drawing false with status := Status.Synced }) ∧
      (res ≠ Result.Success →
        res = Result.InsufficientCondition ∧
          s1 = Impl.mk [3, 4] (some 1) Status.Drawing false)) ∧
    ((Impl.mk [3, 4] (some 1) Status.Drawing false).status = Status.Synced →
      (Impl.mk [3, 4] (some 1) Status.Drawing false).sync envAllTrue world0
        = some (Result.InsufficientCondition,
            Impl.mk [3, 4] (some 1) Status.Drawing false, world0)) :=
  ⟨rfl, C5_sync_success_iff envAllTrue (Impl.mk [3, 4] (some 1) Status.Drawing false) world0 1 rfl⟩

/-- Atomicity of `draw`: whenever it returns something else than `Success`, the
controller it returns is the one it was called on. -/
theorem draw_failure_state (env : Env) (s : Impl) (w : World) (res : Result) (s1 : Impl)
    (w1 : World) (h : s.draw env w = some (res, s1, w1)) (hres : res ≠ Result.Success) :
    s1 = s := by
  unfold Impl.draw at h
  split at h
  · simp at h
    exact h.2.1.symm
  · split at h
    · cases h
    · split at h
      · simp at h
        exact h.2.1.symm
      · split at h
        · simp at h
          exact h.2.1.symm
        · split at h
          · simp at h
            exact h.2.1.symm
          · simp at h
            exact absurd h.1.symm hres

/-- Atomicity of `sync`: whenever it returns something else than `Success`, the
controller it returns is the one it was called on. -/
theorem sync_failure_state (env : Env) (s : Impl) (w : World) (res : Result) (s1 : Impl)
    (w1 : World) (h : s.sync env w = some (res, s1, w1)) (hres : res ≠ Result.Success) :
    s1 = s := by
  unfold Impl.sync at h
  split at h
  · simp at h
    exact h.2.1.symm
  · split at h
    · cases h
    · split at h
      · simp at h
        exact absurd h.1.symm hres
      · simp at h
        exact h.2.1.symm

/-- With a backend attached, `draw` and `sync` return. -/
theorem draw_sync_return (env : Env) (s : Impl) (w : World) (h : s.renderer ≠ none) :
    (s.draw env w).isSome = true ∧ (s.sync env w).isSome = true := by
  obtain ⟨r, hr⟩ := Option.ne_none_iff_exists'.mp h
  constructor
  · unfold Impl.draw
    rw [hr]
    split
    · rfl
    · dsimp only
      split
      · rfl
      · split
        · rfl
        · split <;> rfl
  · unfold Impl.sync
    rw [hr]
    split
    · rfl
    · dsimp only
      split <;> rfl

/-- C6: atomicity on failure.  For `push`, `clear`, `update`, `draw` and `sync`,
every argument and every controller: if the operation returns a result other
than `Success`, the controller it leaves (paint list, status, refresh flag,
backend pointer) is the controller it found.  `draw` and `sync` do return
whenever a backend is attached.  In particular a `clear(true, true)` that the
backend refuses keeps the paint list. -/
theorem C6_failure_leaves_controller_unchanged (env : Env) (s : Impl) (w : World)
    (paint : Option Paint) (cp cb force : Bool) :
    ((s.push w paint).1 ≠ Result.Success → (s.push w paint).2.1 = s) ∧
    ((s.clear env w cp cb).1 ≠ Result.Success → (s.clear env w cp cb).2.1 = s) ∧
    ((s.update w paint force).1 ≠ Result.Success → (s.update w paint force).2.1 = s) ∧
    (∀ res s1 w1, s.draw env w = some (res, s1, w1) → res ≠ Result.Success → s1 = s) ∧
    (∀ res s1 w1, s.sync env w = some (res, s1, w1) → res ≠ Result.Success → s1 = s) ∧
    (s.renderer ≠ none → (s.draw env w).isSome = true ∧ (s.sync env w).isSome = true) ∧
    (s.status ≠ Status.Drawing → env.clear w.trace = false →
      (s.clear env w true true).1 = Result.InsufficientCondition ∧
      (s.clear env w true true).2.1 = s) := by
  refine ⟨?_, ?_, ?_, ?_, ?_, draw_sync_return env s w, ?_⟩
  · unfold Impl.push
    by_cases hd : s.status = Status.Drawing
    · simp [hd]
    · cases paint with
      | none => simp [hd]
      | some p => simp [Impl.update, hd]
  · unfold Impl.clear
    split
    · simp
    · split
      · simp
      · split <;> simp
  · unfold Impl.update
    split
    · simp
    · cases paint <;> simp
  · exact fun res s1 w1 h hres => draw_failure_state env s w res s1 w1 h hres
  · exact fun res s1 w1 h hres => sync_failure_state env s w res s1 w1 h hres
  · intro hs hc
    cases hr : s.renderer <;> simp [Impl.clear, clearBuffer, hs, hc, hr]

/-! ## Push -/

/-- C7: with a status other than `Drawing`, `push(p)` of a non-null paint returns
`Success`; the paint list afterwards is the previous list with `p` appended at
the end, the status is `Updating` and nothing else of the controller changes;
the reference counter of `p` is one more than before and no other counter
moves; and the calls made are exactly `ref` on `p` followed by one update, of
`p`, so no update is requested for another paint of the list. -/
theorem C7_push_appends_and_updates_new_paint (s : Impl) (w : World) (p : Paint)
    (h : s.status ≠ Status.Drawing) :
    (s.push w (some p)).1 = Result.Success ∧
    (s.push w (some p)).2.1 = { s with paints := s.paints ++ [p], status := Status.Updating } ∧
    (s.push w (some p)).2.2.trace
      = w.trace ++ [Event.paintRef p, Event.paintUpdate p 255 RenderUpdateFlag.All] ∧
    (s.push w (some p)).2.2.paintRefCnt p = w.paintRefCnt p + 1 ∧
    (∀ q, q ≠ p → (s.push w (some p)).2.2.paintRefCnt q = w.paintRefCnt q) ∧
    (s.push w (some p)).2.2.rendererRefCnt = w.rendererRefCnt := by
  have hpush : s.push w (some p) =
      (Result.Success, { s with paints := s.paints ++ [p], status := Status.Updating },
        (w.refPaint p).log (Event.paintUpdate p 255 RenderUpdateFlag.All)) := by
    simp [Impl.push, Impl.update, h]
  rw [hpush]
  refine ⟨rfl, rfl, ?_, ?_, ?_, rfl⟩
  · simp [World.log, World.refPaint]
  · simp [World.log, World.refPaint]
  · intro q hq
    simp [World.log, World.refPaint, hq]

/-- C7 at a controller in status `Updating` holding paints 3 and 4, pushing paint 9. -/
theorem C7_push_appends_and_updates_new_paint_witness :
    (Impl.mk [3, 4] (some 1) Status.Updating false).status ≠ Status.Drawing ∧
    ((Impl.mk [3, 4] (some 1) Status.Updating false).push world0 (some 9)).1 = Result.Success ∧
    ((Impl.mk [3, 4] (some 1) Status.Updating false).push world0 (some 9)).2.1
      = Impl.mk [3, 4, 9] (some 1) Status.Updating false ∧
    ((Impl.mk [3, 4] (some 1) Status.Updating false).push world0 (some 9)).2.2.trace
      = [Event.paintRef 9, Event.paintUpdate 9 255 RenderUpdateFlag.All] ∧
    ((Impl.mk [3, 4] (some 1) Status.Updating false).push world0 (some 9)).2.2.paintRefCnt 9 = 1 :=
  ⟨by decide,
   (C7_push_appends_and_updates_new_paint (Impl.mk [3, 4] (some 1) Status.Updating false)
      world0 9 (by decide)).1,
   (C7_push_appends_and_updates_new_paint (Impl.mk [3, 4] (some 1) Status.Updating false)
      world0 9 (by decide)).2.1,
   (C7_push_appends_and_updates_new_paint (Impl.mk [3, 4] (some 1) Status.Updating false)
      world0 9 (by decide)).2.2.1,
   (C7_push_appends_and_updates_new_paint (Impl.mk [3, 4] (some 1) Status.Updating false)
      world0 9 (by decide)).2.2.2.1⟩

/-- C8: with a status other than `Drawing`, `push` of an absent paint returns
`MemoryCorruption`, leaves the controller (paint list, status, refresh flag) as
it was and calls nothing: no paint update is requested. -/
theorem C8_push_null_is_memory_corruption (s : Impl) (w : World)
    (h : s.status ≠ Status.Drawing) :
    s.push w none = (Result.MemoryCorruption, s, w) := by
  simp [Impl.push, h]

/-- C8 at a freshly constructed controller. -/
theorem C8_push_null_is_memory_corruption_witness :
    (Impl.mk [] (some 1) Status.Synced false).status ≠ Status.Drawing ∧
    (Impl.mk [] (some 1) Status.Synced false).push world0 none
      = (Result.MemoryCorruption, Impl.mk [] (some 1) Status.Synced false, world0) :=
  ⟨by decide, C8_push_null_is_memory_corruption _ world0 (by decide)⟩

/-! ## The update flag -/

/-- C9: for every successful `update(paint, force)` there is one flag handed to
every updated paint; it is `All` exactly when the refresh flag was set before
the call or `force` is true, and `None` exactly otherwise.  The calls made are
one update of the given paint when one is given, and otherwise one update of
every owned paint, in list order; no reference counter moves. -/
theorem C9_update_flag_and_targets (s : Impl) (w : World) (paint : Option Paint) (force : Bool)
    (h : (s.update w paint force).1 = Result.Success) :
    ∃ flag : RenderUpdateFlag,
      (flag = RenderUpdateFlag.All ↔ (s.refresh = true ∨ force = true)) ∧
      (flag = RenderUpdateFlag.None ↔ ¬ (s.refresh = true ∨ force = true)) ∧
      (∀ p, paint = some p →
        (s.update w paint force).2.2.trace = w.trace ++ [Event.paintUpdate p 255 flag]) ∧
      (paint = none →
        (s.update w paint force).2.2.trace
          = w.trace ++ s.paints.map (fun q => Event.paintUpdate q 255 flag)) ∧
      (s.update w paint force).2.2.paintRefCnt = w.paintRefCnt ∧
      (s.update w paint force).2.2.rendererRefCnt = w.rendererRefCnt := by
  have hc : ¬ (s.paints = [] ∨ s.status = Status.Drawing) := by
    intro hc
    simp [Impl.update, hc] at h
  refine ⟨if s.refresh = true ∨ force = true then RenderUpdateFlag.All else RenderUpdateFlag.None,
    ?_, ?_, ?_, ?_, ?_, ?_⟩
  · by_cases hf : s.refresh = true ∨ force = true
    · simp [hf]
    · simp only [if_neg hf, hf, iff_false]
      intro e
      cases e
  · by_cases hf : s.refresh = true ∨ force = true
    · simp only [if_pos hf, hf, not_true_eq_false, iff_false]
      intro e
      cases e
    · simp [hf]
  · intro p hp
    subst hp
    simp only [Impl.update, if_neg hc, World.log]
  · intro hp
    subst hp
    simp only [Impl.update, if_neg hc, updateLoop_trace]
  · cases paint with
    | none => simp only [Impl.update, if_neg hc, updateLoop_paintRefCnt]
    | some p => simp only [Impl.update, if_neg hc, World.log]
  · cases paint with
    | none => simp only [Impl.update, if_neg hc, updateLoop_rendererRefCnt]
    | some p => simp only [Impl.update, if_neg hc, World.log]

/-- C9 at a controller holding paints 3 and 4 with the refresh flag set, for a
whole-scene update without force. -/
theorem C9_update_flag_and_targets_witness :
    ((Impl.mk [3, 4] (some 1) Status.Synced true).update world0 none false).1 = Result.Success ∧
    ∃ flag : RenderUpdateFlag,
      (flag = RenderUpdateFlag.All ↔
        ((Impl.mk [3, 4] (some 1) Status.Synced true).refresh = true ∨ false = true)) ∧
      (flag = RenderUpdateFlag.None ↔
        ¬ ((Impl.mk [3, 4] (some 1) Status.Synced true).refresh = true ∨ false = true)) ∧
      (∀ p, (none : Option Paint) = some p →
        ((Impl.mk [3, 4] (some 1) Status.Synced true).update world0 none false).2.2.trace
          = world0.trace ++ [Event.paintUpdate p 255 flag]) ∧
      ((none : Option Paint) = none →
        ((Impl.mk [3, 4] (some 1) Status.Synced true).update world0 none false).2.2.trace
          = world0.trace ++
            (Impl.mk [3, 4] (some 1) Status.Synced true).paints.map
              (fun q => Event.paintUpdate q 255 flag)) ∧
      ((Impl.mk [3, 4] (some 1) Status.Synced true).update world0 none false).2.2.paintRefCnt
        = world0.paintRefCnt ∧
      ((Impl.mk [3, 4] (some 1) Status.Synced true).update world0 none false).2.2.rendererRefCnt
        = world0.rendererRefCnt :=
  ⟨rfl, C9_update_flag_and_targets (Impl.mk [3, 4] (some 1) Status.Synced true) world0 none
    false rfl⟩

/-- C10: refresh scenario.  From every controller whose status is not `Drawing`
and whose paint list is not empty: after `needRefresh()`, `update(X, false)`
succeeds and requests an `All` update of `X` although force is false; the
whole-scene `update(none, force)` that follows succeeds for either force, hands
`All` to every owned paint and leaves the refresh flag unset; and the
`update(Y, false)` after it succeeds and requests a `None` update of `Y`. -/
theorem C10_refresh_scenario (s : Impl) (w : World) (X Y : Paint) (force : Bool)
    (hs : s.status ≠ Status.Drawing) (hp : s.paints ≠ []) :
    ∃ s1 w1 s2 w2 s3 w3,
      s.needRefresh.update w (some X) false = (Result.Success, s1, w1) ∧
      w1.trace = w.trace ++ [Event.paintUpdate X 255 RenderUpdateFlag.All] ∧
      s1.update w1 none force = (Result.Success, s2, w2) ∧
      w2.trace = w1.trace ++ s.paints.map (fun q => Event.paintUpdate q 255 RenderUpdateFlag.All) ∧
      s2.refresh = false ∧
      s2.update w2 (some Y) false = (Result.Success, s3, w3) ∧
      w3.trace = w2.trace ++ [Event.paintUpdate Y 255 RenderUpdateFlag.None] := by
  refine ⟨{ s with refresh := true, status := Status.Updating },
    w.log (Event.paintUpdate X 255 RenderUpdateFlag.All),
    { s with refresh := false, status := Status.Updating },
    updateLoop RenderUpdateFlag.All s.paints (w.log (Event.paintUpdate X 255 RenderUpdateFlag.All)),
    { s with refresh := false, status := Status.Updating },
    (updateLoop RenderUpdateFlag.All s.paints
      (w.log (Event.paintUpdate X 255 RenderUpdateFlag.All))).log
      (Event.paintUpdate Y 255 RenderUpdateFlag.None),
    ?_, rfl, ?_, ?_, rfl, ?_, rfl⟩
  · simp [Impl.update, Impl.needRefresh, hs, hp]
  · simp [Impl.update, hp]
  · rw [updateLoop_trace]
  · simp [Impl.update, hp]

/-- C10 at a controller in status `Synced` holding paints 3 and 4, with `X = 3`,
`Y = 4` and a forced whole-scene update. -/
theorem C10_refresh_scenario_witness :
    (Impl.mk [3, 4] (some 1) Status.Synced false).status ≠ Status.Drawing ∧
    (Impl.mk [3, 4] (some 1) Status.Synced false).paints ≠ [] ∧
    ∃ s1 w1 s2 w2 s3 w3,
      (Impl.mk [3, 4] (some 1) Status.Synced false).needRefresh.update world0 (some 3) false
        = (Result.Success, s1, w1) ∧
      w1.trace = world0.trace ++ [Event.paintUpdate 3 255 RenderUpdateFlag.All] ∧
      s1.update w1 none true = (Result.Success, s2, w2) ∧
      w2.trace = w1.trace ++
        (Impl.mk [3, 4] (some 1) Status.Synced false).paints.map
          (fun q => Event.paintUpdate q 255 RenderUpdateFlag.All) ∧
      s2.refresh = false ∧
      s2.update w2 (some 4) false = (Result.Success, s3, w3) ∧
      w3.trace = w2.trace ++ [Event.paintUpdate 4 255 RenderUpdateFlag.None] :=
  ⟨by decide, by decide,
   C10_refresh_scenario (Impl.mk [3, 4] (some 1) Status.Synced false) world0 3 4 true
     (by decide) (by decide)⟩

/-! ## Releasing the paints -/

theorem clearPaintsLoop_paintRefCnt (ps : List Paint) (w : World) (p : Paint) :
    (clearPaintsLoop ps w).paintRefCnt p = w.paintRefCnt p - ps.count p := by
  induction ps generalizing w with
  | nil => simp [clearPaintsLoop]
  | cons q rest ih =>
    rw [clearPaintsLoop, ih]
    by_cases hq : q = p
    · subst hq
      split <;> simp [World.unrefPaint, World.log] <;> omega
    · have hpq : ¬ p = q := fun e => hq e.symm
      split <;> simp [World.unrefPaint, World.log, hq, hpq, List.count_cons]

theorem clearPaintsLoop_rendererRefCnt (ps : List Paint) (w : World) :
    (clearPaintsLoop ps w).rendererRefCnt = w.rendererRefCnt := by
  induction ps generalizing w with
  | nil => simp [clearPaintsLoop]
  | cons q rest ih =>
    rw [clearPaintsLoop, ih]
    split <;> simp [World.unrefPaint, World.log]

/-- What the loop of `clearPaints` adds to the trace: only `unref` and `delete` of
paints of the list, one `unref` per occurrence of a paint, and a `delete` of
exactly the paints of the list whose counter ends at zero. -/
theorem clearPaintsLoop_trace (ps : List Paint) (w : World) :
    ∃ released : List Event,
      (clearPaintsLoop ps w).trace = w.trace ++ released ∧
      (∀ e ∈ released, ∃ p ∈ ps, e = Event.paintUnref p ∨ e = Event.paintDelete p) ∧
      (∀ p, released.count (Event.paintUnref p) = ps.count p) ∧
      (∀ p, Event.paintDelete p ∈ released ↔ (p ∈ ps ∧ w.paintRefCnt p - ps.count p = 0)) := by
  induction ps generalizing w with
  | nil => exact ⟨[], by simp [clearPaintsLoop]⟩
  | cons q rest ih =>
    rw [clearPaintsLoop]
    by_cases hz : w.paintRefCnt q - 1 = 0
    · have hw : (w.unrefPaint q).1 = 0 := hz
      rw [if_pos hw]
      obtain ⟨rel, htr, hev, hcnt, hdel⟩ := ih ((w.unrefPaint q).2.log (Event.paintDelete q))
      refine ⟨Event.paintUnref q :: Event.paintDelete q :: rel, ?_, ?_, ?_, ?_⟩
      · rw [htr]
        simp [World.log, World.unrefPaint]
      · intro e he
        simp only [List.mem_cons] at he
        rcases he with he | he | he
        · exact ⟨q, by simp, Or.inl he⟩
        · exact ⟨q, by simp, Or.inr he⟩
        · obtain ⟨p, hp, h⟩ := hev e he
          exact ⟨p, List.mem_cons_of_mem _ hp, h⟩
      · intro p
        by_cases hqp : q = p
        · subst hqp
          simp [List.count_cons, hcnt]
        · simp [List.count_cons, hcnt, hqp]
      · intro p
        have hd := hdel p
        simp only [World.log, World.unrefPaint] at hd
        by_cases hpq : p = q
        · subst hpq
          simp only [List.mem_cons, true_or, or_true, true_and, List.count_cons_self, iff_true,
            reduceCtorEq, false_or]
          rw [true_iff]
          omega
        · have hqp : ¬ q = p := fun e => hpq e.symm
          simp only [List.mem_cons, reduceCtorEq, false_or, Event.paintDelete.injEq, hpq, hd,
            if_neg hpq]
          simp [List.count_cons, hqp]
    · have hw : ¬ (w.unrefPaint q).1 = 0 := hz
      rw [if_neg hw]
      obtain ⟨rel, htr, hev, hcnt, hdel⟩ := ih (w.unrefPaint q).2
      refine ⟨Event.paintUnref q :: rel, ?_, ?_, ?_, ?_⟩
      · rw [htr]
        simp [World.unrefPaint]
      · intro e he
        simp only [List.mem_cons] at he
        rcases he with he | he
        · exact ⟨q, by simp, Or.inl he⟩
        · obtain ⟨p, hp, h⟩ := hev e he
          exact ⟨p, List.mem_cons_of_mem _ hp, h⟩
      · intro p
        by_cases hqp : q = p
        · subst hqp
          simp [List.count_cons, hcnt]
        · simp [List.count_cons, hcnt, hqp]
      · intro p
        have hd := hdel p
        simp only [World.unrefPaint] at hd
        by_cases hpq : p = q
        · subst hpq
          simp only [List.mem_cons, reduceCtorEq, false_or, hd, if_true, true_or, true_and,
            List.count_cons_self]
          constructor
          · rintro ⟨-, h⟩
            omega
          · intro h
            have hmem : p ∈ rest := by
              by_contra hn
              have : rest.count p = 0 := List.count_eq_zero_of_not_mem hn
              omega
            exact ⟨hmem, by omega⟩
        · have hqp : ¬ q = p := fun e => hpq e.symm
          simp only [List.mem_cons, reduceCtorEq, false_or, hpq, hd, if_neg hpq]
          simp [List.count_cons, hqp]

/-- The loop of `clearPaints` makes no call to the backend: what it adds to the
trace holds no backend event. -/
theorem clearPaintsLoop_no_backend_call (ps : List Paint) (w : World) :
    ∃ released : List Event,
      (clearPaintsLoop ps w).trace = w.trace ++ released ∧
      Event.rendererClear ∉ released ∧ Event.rendererSync ∉ released ∧
      Event.preRender ∉ released ∧ Event.postRender ∉ released ∧
      Event.rendererRef ∉ released ∧ Event.rendererUnref ∉ released ∧
      Event.rendererDelete ∉ released := by
  obtain ⟨rel, htr, hev, -, -⟩ := clearPaintsLoop_trace ps w
  refine ⟨rel, htr, ?_, ?_, ?_, ?_, ?_, ?_, ?_⟩ <;>
  · intro hmem
    obtain ⟨p, -, h | h⟩ := hev _ hmem <;> cases h

/-! ## Clear -/

/-- The contract of `clear(paints, buffer)` on every controller whose status is not
`Drawing`, with or without a backend: the backend's `clear` is called, once,
exactly when `buffer` is true and a backend is attached; the result is
`Success` exactly when `buffer` is false or a backend is attached and its
`clear` succeeds; on `Success` the paint list is empty when `paints` is true
and unchanged otherwise; on failure the controller is as it was; status,
refresh flag and backend pointer never change. -/
theorem clear_contract (env : Env) (s : Impl) (w : World) (paints buffer : Bool)
    (h : s.status ≠ Status.Drawing) :
    ∃ added : List Event,
      (s.clear env w paints buffer).2.2.trace = w.trace ++ added ∧
      (Event.rendererClear ∈ added ↔ (buffer = true ∧ s.renderer ≠ none)) ∧
      added.count Event.rendererClear ≤ 1 ∧
      ((s.clear env w paints buffer).1 = Result.Success ↔
        (buffer = false ∨ (s.renderer ≠ none ∧ env.clear w.trace = true))) ∧
      ((s.clear env w paints buffer).1 = Result.Success →
        (s.clear env w paints buffer).2.1.paints = if paints = true then [] else s.paints) ∧
      ((s.clear env w paints buffer).1 ≠ Result.Success →
        (s.clear env w paints buffer).1 = Result.InsufficientCondition ∧
        (s.clear env w paints buffer).2.1 = s) ∧
      (s.clear env w paints buffer).2.1.status = s.status ∧
      (s.clear env w paints buffer).2.1.refresh = s.refresh ∧
      (s.clear env w paints buffer).2.1.renderer = s.renderer := by
  cases buffer with
  | false =>
    cases paints with
    | false =>
      refine ⟨[], ?_⟩
      simp [Impl.clear, clearBuffer, h]
    | true =>
      obtain ⟨rel, htr, hno, -⟩ := clearPaintsLoop_no_backend_call s.paints w
      refine ⟨rel, ?_⟩
      simp [Impl.clear, clearBuffer, Impl.clearPaints, h, htr, hno,
        List.count_eq_zero_of_not_mem hno]
  | true =>
    cases hr : s.renderer with
    | none =>
      refine ⟨[], ?_⟩
      simp [Impl.clear, clearBuffer, h, hr]
    | some r =>
      cases hc : env.clear w.trace with
      | false =>
        refine ⟨[Event.rendererClear], ?_⟩
        simp [Impl.clear, clearBuffer, h, hr, hc, World.log]
      | true =>
        cases paints with
        | false =>
          refine ⟨[Event.rendererClear], ?_⟩
          simp [Impl.clear, clearBuffer, h, hr, hc, World.log]
        | true =>
          obtain ⟨rel, htr, hno, -⟩ :=
            clearPaintsLoop_no_backend_call s.paints (w.log Event.rendererClear)
          refine ⟨Event.rendererClear :: rel, ?_⟩
          have htr2 : (clearPaintsLoop s.paints (w.log Event.rendererClear)).trace
              = w.trace ++ Event.rendererClear :: rel := by
            rw [htr]
            simp [World.log]
          simp [Impl.clear, clearBuffer, Impl.clearPaints, h, hr, hc, htr2,
            List.count_eq_zero_of_not_mem hno]

/-- C11: on a controller with its backend attached and a status other than
`Drawing`, `clear(paints, buffer)` calls the backend's `clear` if and only if
`buffer` is true (and then once), and returns `Success` if and only if `buffer`
is false or the backend is present and its `clear` succeeds; on `Success` the
paint list is empty when `paints` is true and unchanged when `paints` is false;
otherwise the result is `InsufficientCondition` and the controller is as it
was; in all cases status and refresh flag are unchanged. -/
theorem C11_clear_invokes_backend_iff_buffer (env : Env) (s : Impl) (w : World)
    (paints buffer : Bool) (r : RenderMethod) (hr : s.renderer = some r)
    (h : s.status ≠ Status.Drawing) :
    ∃ added : List Event,
      (s.clear env w paints buffer).2.2.trace = w.trace ++ added ∧
      (Event.rendererClear ∈ added ↔ buffer = true) ∧
      added.count Event.rendererClear ≤ 1 ∧
      ((s.clear env w paints buffer).1 = Result.Success ↔
        (buffer = false ∨ (s.renderer ≠ none ∧ env.clear w.trace = true))) ∧
      ((s.clear env w paints buffer).1 = Result.Success →
        (s.clear env w paints buffer).2.1.paints = if paints = true then [] else s.paints) ∧
      ((s.clear env w paints buffer).1 ≠ Result.Success →
        (s.clear env w paints buffer).1 = Result.InsufficientCondition ∧
        (s.clear env w paints buffer).2.1 = s) ∧
      (s.clear env w paints buffer).2.1.status = s.status ∧
      (s.clear env w paints buffer).2.1.refresh = s.refresh := by
  obtain ⟨added, htr, hcall, hcnt, hres, hpaints, hfail, hst, hrf, -⟩ :=
    clear_contract env s w paints buffer h
  have hpresent : s.renderer ≠ none := by
    rw [hr]
    exact Option.some_ne_none r
  refine ⟨added, htr, ?_, hcnt, hres, hpaints, hfail, hst, hrf⟩
  rw [hcall]
  exact ⟨fun hb => hb.1, fun hb => ⟨hb, hpresent⟩⟩

/-- C11 at a controller holding paints 3 and 4 whose backend accepts the clear,
for `clear(true, true)`: the backend's `clear` is called, then both paints are
released, and the result is `Success` with an empty list. -/
theorem C11_clear_invokes_backend_iff_buffer_witness :
    (Impl.mk [3, 4] (some 1) Status.Updating false).renderer = some 1 ∧
    (Impl.mk [3, 4] (some 1) Status.Updating false).status ≠ Status.Drawing ∧
    (∃ added : List Event,
      ((Impl.mk [3, 4] (some 1) Status.Updating false).clear envAllTrue worldHeld true
        true).2.2.trace = worldHeld.trace ++ added ∧
      (Event.rendererClear ∈ added ↔ true = true) ∧
      added.count Event.rendererClear ≤ 1) ∧
    ((Impl.mk [3, 4] (some 1) Status.Updating false).clear envAllTrue worldHeld true true).1
      = Result.Success ∧
    ((Impl.mk [3, 4] (some 1) Status.Updating false).clear envAllTrue worldHeld true true).2.1
      = Impl.mk [] (some 1) Status.Updating false ∧
    ((Impl.mk [3, 4] (some 1) Status.Updating false).clear envAllTrue worldHeld true
      true).2.2.trace
      = [Event.rendererClear, Event.paintUnref 3, Event.paintDelete 3, Event.paintUnref 4] ∧
    ((Impl.mk [3, 4] (some 1) Status.Updating false).clear envAllTrue worldHeld false
      false).2.2.trace = [] :=
  ⟨rfl, by decide,
   (C11_clear_invokes_backend_iff_buffer envAllTrue
      (Impl.mk [3, 4] (some 1) Status.Updating false) worldHeld true true 1 rfl (by decide)).imp
     (fun _ hadd => ⟨hadd.1, hadd.2.1, hadd.2.2.1⟩),
   by decide, by decide, by decide, by decide⟩

/-- C12: with a status other than `Drawing`, `clear(true, false)` returns
`Success` and empties the paint list, leaving the rest of the controller as it
was.  What it adds to the trace is only `unref` and `delete` of paints of the
list, so no call to the backend; it calls `unref` once per occurrence of a
paint in the list; the counter of every paint ends lower by its number of
occurrences (exactly so when the counter held at least that many references);
a paint is destroyed exactly when it was in the list and its counter ended at
zero; the backend's counter does not move. -/
theorem C12_clear_paints_releases_each_paint (env : Env) (s : Impl) (w : World)
    (h : s.status ≠ Status.Drawing) :
    (s.clear env w true false).1 = Result.Success ∧
    (s.clear env w true false).2.1 = { s with paints := [] } ∧
    ∃ released : List Event,
      (s.clear env w true false).2.2.trace = w.trace ++ released ∧
      (∀ e ∈ released, ∃ p ∈ s.paints, e = Event.paintUnref p ∨ e = Event.paintDelete p) ∧
      (∀ p, released.count (Event.paintUnref p) = s.paints.count p) ∧
      (∀ p, (s.clear env w true false).2.2.paintRefCnt p = w.paintRefCnt p - s.paints.count p) ∧
      (∀ p, s.paints.count p ≤ w.paintRefCnt p →
        (s.clear env w true false).2.2.paintRefCnt p + s.paints.count p = w.paintRefCnt p) ∧
      (∀ p, Event.paintDelete p ∈ released ↔
        (p ∈ s.paints ∧ (s.clear env w true false).2.2.paintRefCnt p = 0)) ∧
      (s.clear env w true false).2.2.rendererRefCnt = w.rendererRefCnt := by
  have hclear : s.clear env w true false
      = (Result.Success, { s with paints := [] }, clearPaintsLoop s.paints w) := by
    simp [Impl.clear, clearBuffer, Impl.clearPaints, h]
  rw [hclear]
  obtain ⟨rel, htr, hev, hcnt, hdel⟩ := clearPaintsLoop_trace s.paints w
  refine ⟨rfl, rfl, rel, htr, hev, hcnt, ?_, ?_, ?_, ?_⟩
  · intro p
    exact clearPaintsLoop_paintRefCnt s.paints w p
  · intro p hp
    have := clearPaintsLoop_paintRefCnt s.paints w p
    simp only at this ⊢
    omega
  · intro p
    have := clearPaintsLoop_paintRefCnt s.paints w p
    simp only at this ⊢
    rw [hdel p, this]
  · exact clearPaintsLoop_rendererRefCnt s.paints w

/-- C12 at a controller holding paint 3 (held once) and paint 4 (held twice):
paint 3 is destroyed, paint 4 is not. -/
theorem C12_clear_paints_releases_each_paint_witness :
    (Impl.mk [3, 4] (some 1) Status.Updating false).status ≠ Status.Drawing ∧
    ((Impl.mk [3, 4] (some 1) Status.Updating false).clear envAllTrue worldHeld true false).1
      = Result.Success ∧
    ((Impl.mk [3, 4] (some 1) Status.Updating false).clear envAllTrue worldHeld true false).2.1
      = Impl.mk [] (some 1) Status.Updating false ∧
    ((Impl.mk [3, 4] (some 1) Status.Updating false).clear envAllTrue worldHeld true
      false).2.2.trace = [Event.paintUnref 3, Event.paintDelete 3, Event.paintUnref 4] :=
  ⟨by decide,
   (C12_clear_paints_releases_each_paint envAllTrue
      (Impl.mk [3, 4] (some 1) Status.Updating false) worldHeld (by decide)).1,
   (C12_clear_paints_releases_each_paint envAllTrue
      (Impl.mk [3, 4] (some 1) Status.Updating false) worldHeld (by decide)).2.1,
   by decide⟩

/-! ## The controller after each operation -/

/-- The controller after `push`: on `Success` a paint was given, the status was
not `Drawing`, and the controller has the paint appended and status `Updating`;
otherwise the controller is as it was. -/
theorem push_state_cases (s : Impl) (w : World) (paint : Option Paint) :
    ((s.push w paint).1 = Result.Success ∧ s.status ≠ Status.Drawing ∧
      ∃ q, paint = some q ∧
        (s.push w paint).2.1 = { s with paints := s.paints ++ [q], status := Status.Updating }) ∨
    ((s.push w paint).1 ≠ Result.Success ∧ (s.push w paint).2.1 = s) := by
  by_cases hd : s.status = Status.Drawing
  · right
    simp [Impl.push, hd]
  · cases paint with
    | none =>
      right
      simp [Impl.push, hd]
    | some q =>
      left
      simp [Impl.push, Impl.update, hd]

/-- The controller after `clear`: on `Success` the status was not `Drawing` and the
paint list is emptied or kept as asked; otherwise the controller is as it was. -/
theorem clear_state_cases (env : Env) (s : Impl) (w : World) (paints buffer : Bool) :
    ((s.clear env w paints buffer).1 = Result.Success ∧ s.status ≠ Status.Drawing ∧
      (s.clear env w paints buffer).2.1
        = { s with paints := if paints = true then [] else s.paints }) ∨
    ((s.clear env w paints buffer).1 ≠ Result.Success ∧ (s.clear env w paints buffer).2.1 = s) := by
  unfold Impl.clear
  by_cases hd : s.status = Status.Drawing
  · right
    simp [hd]
  · rw [if_neg hd]
    by_cases hb : (clearBuffer env s w buffer).1 = false
    · right
      simp [hb]
    · rw [if_neg hb]
      left
      cases paints <;> simp [hd, Impl.clearPaints]

/-- The controller after `update`: on `Success` the status was not `Drawing`, the
list was not empty, the status is `Updating` and the refresh flag is unset by a
whole-scene update and kept by a single-paint update; otherwise the controller
is as it was. -/
theorem update_state_cases (s : Impl) (w : World) (paint : Option Paint) (force : Bool) :
    ((s.update w paint force).1 = Result.Success ∧ s.status ≠ Status.Drawing ∧ s.paints ≠ [] ∧
      (s.update w paint force).2.1
        = { s with status := Status.Updating
                   refresh := if paint = none then false else s.refresh }) ∨
    ((s.update w paint force).1 ≠ Result.Success ∧ (s.update w paint force).2.1 = s) := by
  unfold Impl.update
  by_cases hc : s.paints = [] ∨ s.status = Status.Drawing
  · right
    simp [hc]
  · rw [if_neg hc]
    left
    have ha : s.paints ≠ [] := fun e => hc (Or.inl e)
    have hb : s.status ≠ Status.Drawing := fun e => hc (Or.inr e)
    cases paint <;> simp [ha, hb]

/-- The controller after `draw`: on `Success` the status was not `Drawing`, the
list was not empty and the status is `Drawing`; otherwise the controller is as
it was. -/
theorem draw_state_cases (env : Env) (s : Impl) (w : World) (res : Result) (s1 : Impl)
    (w1 : World) (h : s.draw env w = some (res, s1, w1)) :
    (res = Result.Success ∧ s.status ≠ Status.Drawing ∧ s.paints ≠ [] ∧
      s1 = { s with status := Status.Drawing }) ∨
    (res ≠ Result.Success ∧ s1 = s) := by
  by_cases hres : res = Result.Success
  · left
    unfold Impl.draw at h
    by_cases hc : s.status = Status.Drawing ∨ s.paints = []
    · rw [if_pos hc] at h
      simp at h
      exact absurd hres (by rw [← h.1]; decide)
    · rw [if_neg hc] at h
      have ha : s.status ≠ Status.Drawing := fun e => hc (Or.inl e)
      have hb : s.paints ≠ [] := fun e => hc (Or.inr e)
      refine ⟨hres, ha, hb, ?_⟩
      split at h
      · cases h
      · split at h
        · simp at h
          exact absurd hres (by rw [← h.1]; decide)
        · split at h
          · simp at h
            exact absurd hres (by rw [← h.1]; decide)
          · split at h
            · simp at h
              exact absurd hres (by rw [← h.1]; decide)
            · simp at h
              exact h.2.1.symm
  · right
    exact ⟨hres, draw_failure_state env s w res s1 w1 h hres⟩

/-- The controller after `sync`: on `Success` the status was not `Synced` and is now
`Synced`; otherwise the controller is as it was. -/
theorem sync_state_cases (env : Env) (s : Impl) (w : World) (res : Result) (s1 : Impl)
    (w1 : World) (h : s.sync env w = some (res, s1, w1)) :
    (res = Result.Success ∧ s.status ≠ Status.Synced ∧ s1 = { s with status := Status.Synced }) ∨
    (res ≠ Result.Success ∧ s1 = s) := by
  by_cases hres : res = Result.Success
  · left
    unfold Impl.sync at h
    by_cases hc : s.status = Status.Synced
    · rw [if_pos hc] at h
      simp at h
      exact absurd hres (by rw [← h.1]; decide)
    · rw [if_neg hc] at h
      refine ⟨hres, hc, ?_⟩
      split at h
      · cases h
      · split at h
        · simp at h
          exact h.2.1.symm
        · simp at h
          exact absurd hres (by rw [← h.1]; decide)
  · right
    exact ⟨hres, sync_failure_state env s w res s1 w1 h hres⟩

/-! ## Status transitions -/

/-- C13, the claim as stated fails at reachable controllers.  A controller
constructed on backend 1 that went through `push(7)`, `update`, `draw`, `sync`
is `Synced` with paint 7; a `draw` on it succeeds and moves the status from
`Synced` directly to `Drawing`.  A constructed controller after `push(7)` is
`Updating`; a `sync` on it succeeds and moves the status from `Updating`
directly to `Synced`. -/
theorem C13_counterexample_draw_from_synced_sync_from_updating :
    (Impl.ctor (some 1) world0).map (fun x => x.1) = some (Impl.mk [] (some 1) Status.Synced false) ∧
    (run envAllTrue [Op.push (some 7), Op.update none false, Op.draw, Op.sync]
        (Impl.mk [] (some 1) Status.Synced false) world0.refRenderer).map (fun x => x.2.1)
      = some (Impl.mk [7] (some 1) Status.Synced false) ∧
    (run envAllTrue [Op.push (some 7), Op.update none false, Op.draw, Op.sync, Op.draw]
        (Impl.mk [] (some 1) Status.Synced false) world0.refRenderer).map
        (fun x => (x.1.getLast?, x.2.1))
      = some (some (Op.draw, some Result.Success), Impl.mk [7] (some 1) Status.Drawing false) ∧
    (run envAllTrue [Op.push (some 7)]
        (Impl.mk [] (some 1) Status.Synced false) world0.refRenderer).map (fun x => x.2.1)
      = some (Impl.mk [7] (some 1) Status.Updating false) ∧
    (run envAllTrue [Op.push (some 7), Op.sync]
        (Impl.mk [] (some 1) Status.Synced false) world0.refRenderer).map
        (fun x => (x.1.getLast?, x.2.1))
      = some (some (Op.sync, some Result.Success), Impl.mk [7] (some 1) Status.Synced false) := by
  refine ⟨rfl, ?_, ?_, ?_, ?_⟩ <;> decide

/-- C13 as amended: for every operation and every controller, if the operation
changes the status then the pair (before, after) is one of (Synced, Updating),
by `push` or `update`; (Synced, Drawing) or (Updating, Drawing), by `draw`;
(Updating, Synced) or (Drawing, Synced), by `sync`.  So `draw` does not require
an update before it and `sync` does not require a draw before it; `clear` and
`needRefresh` never change the status and nothing moves `Drawing` to `Updating`. -/
theorem C13_status_change_pairs (env : Env) (s : Impl) (w : World) (op : Op)
    (res : Option Result) (s1 : Impl) (w1 : World)
    (hstep : s.step env w op = some (res, s1, w1)) (hchg : s1.status ≠ s.status) :
    (s.status = Status.Synced ∧ s1.status = Status.Updating ∧
      ((∃ p, op = Op.push p) ∨ ∃ p f, op = Op.update p f)) ∨
    (s.status = Status.Synced ∧ s1.status = Status.Drawing ∧ op = Op.draw) ∨
    (s.status = Status.Updating ∧ s1.status = Status.Drawing ∧ op = Op.draw) ∨
    (s.status = Status.Updating ∧ s1.status = Status.Synced ∧ op = Op.sync) ∨
    (s.status = Status.Drawing ∧ s1.status = Status.Synced ∧ op = Op.sync) := by
  cases op with
  | push p =>
    simp only [Impl.step, Option.some.injEq, Prod.mk.injEq] at hstep
    obtain ⟨-, rfl, -⟩ := hstep
    rcases push_state_cases s w p with ⟨-, hd, q, -, hq⟩ | ⟨-, hq⟩
    · rw [hq] at hchg ⊢
      left
      refine ⟨?_, rfl, Or.inl ⟨p, rfl⟩⟩
      cases hs : s.status <;> simp_all
    · rw [hq] at hchg
      exact absurd rfl hchg
  | clear a b =>
    simp only [Impl.step, Option.some.injEq, Prod.mk.injEq] at hstep
    obtain ⟨-, rfl, -⟩ := hstep
    rcases clear_state_cases env s w a b with ⟨-, -, hq⟩ | ⟨-, hq⟩
    · rw [hq] at hchg
      exact absurd rfl hchg
    · rw [hq] at hchg
      exact absurd rfl hchg
  | update p f =>
    simp only [Impl.step, Option.some.injEq, Prod.mk.injEq] at hstep
    obtain ⟨-, rfl, -⟩ := hstep
    rcases update_state_cases s w p f with ⟨-, hd, -, hq⟩ | ⟨-, hq⟩
    · rw [hq] at hchg ⊢
      left
      refine ⟨?_, rfl, Or.inr ⟨p, f, rfl⟩⟩
      cases hs : s.status <;> simp_all
    · rw [hq] at hchg
      exact absurd rfl hchg
  | draw =>
    simp only [Impl.step, Option.map_eq_some', Prod.mk.injEq] at hstep
    obtain ⟨⟨r0, s0, w0⟩, hdraw, -, rfl, -⟩ := hstep
    rcases draw_state_cases env s w r0 s0 w0 hdraw with ⟨-, hd, -, hq⟩ | ⟨-, hq⟩
    · rw [hq] at hchg ⊢
      cases hs : s.status <;> simp_all
    · rw [hq] at hchg
      exact absurd rfl hchg
  | sync =>
    simp only [Impl.step, Option.map_eq_some', Prod.mk.injEq] at hstep
    obtain ⟨⟨r0, s0, w0⟩, hsync, -, rfl, -⟩ := hstep
    rcases sync_state_cases env s w r0 s0 w0 hsync with ⟨-, hd, hq⟩ | ⟨-, hq⟩
    · rw [hq] at hchg ⊢
      cases hs : s.status <;> simp_all
    · rw [hq] at hchg
      exact absurd rfl hchg
  | needRefresh =>
    simp only [Impl.step, Option.some.injEq, Prod.mk.injEq] at hstep
    obtain ⟨-, rfl, -⟩ := hstep
    exact absurd rfl hchg

/-- C13 as amended, at a `Synced` controller holding paint 7 with a backend and
paints that accept everything: `draw` moves it directly to `Drawing`. -/
theorem C13_status_change_pairs_witness :
    (Impl.mk [7] (some 1) Status.Synced false).step envAllTrue world0 Op.draw
      = some (some Result.Success, Impl.mk [7] (some 1) Status.Drawing false,
          ((world0.log Event.preRender).log (Event.paintRender 7)).log Event.postRender) ∧
    (Impl.mk [7] (some 1) Status.Drawing false).status
      ≠ (Impl.mk [7] (some 1) Status.Synced false).status ∧
    (((Impl.mk [7] (some 1) Status.Synced false).status = Status.Synced ∧
      (Impl.mk [7] (some 1) Status.Drawing false).status = Status.Updating ∧
      ((∃ p, Op.draw = Op.push p) ∨ ∃ p f, Op.draw = Op.update p f)) ∨
    ((Impl.mk [7] (some 1) Status.Synced false).status = Status.Synced ∧
      (Impl.mk [7] (some 1) Status.Drawing false).status = Status.Drawing ∧ Op.draw = Op.draw) ∨
    ((Impl.mk [7] (some 1) Status.Synced false).status = Status.Updating ∧
      (Impl.mk [7] (some 1) Status.Drawing false).status = Status.Drawing ∧ Op.draw = Op.draw) ∨
    ((Impl.mk [7] (some 1) Status.Synced false).status = Status.Updating ∧
      (Impl.mk [7] (some 1) Status.Drawing false).status = Status.Synced ∧ Op.draw = Op.sync) ∨
    ((Impl.mk [7] (some 1) Status.Synced false).status = Status.Drawing ∧
      (Impl.mk [7] (some 1) Status.Drawing false).status = Status.Synced ∧ Op.draw = Op.sync)) :=
  ⟨rfl, by decide,
   C13_status_change_pairs envAllTrue (Impl.mk [7] (some 1) Status.Synced false) world0 Op.draw
     (some Result.Success) (Impl.mk [7] (some 1) Status.Drawing false)
     (((world0.log Event.preRender).log (Event.paintRender 7)).log Event.postRender)
     rfl (by decide)⟩

/-! ## The calls made by draw -/

/-- The calls of a `draw` that passes the tests on status and paint list, on a
controller with a backend: `preRender` first; when it fails nothing more; when it
succeeds one render of every owned paint in list order, followed by one
`postRender` exactly when some render answered true. -/
theorem draw_trace_cases (env : Env) (s : Impl) (w : World) (r : RenderMethod)
    (hr : s.renderer = some r) (hs : s.status ≠ Status.Drawing) (hp : s.paints ≠ []) :
    ∃ res s1 w1, s.draw env w = some (res, s1, w1) ∧
      (env.preRender w.trace = false →
        w1.trace = w.trace ++ [Event.preRender] ∧ res = Result.InsufficientCondition) ∧
      (env.preRender w.trace = true →
        ∃ tail, w1.trace = w.trace ++ [Event.preRender] ++ s.paints.map Event.paintRender ++ tail ∧
          (((∃ k, ∃ hk : k < s.paints.length,
              env.render (s.paints.get ⟨k, hk⟩)
                (w.trace ++ [Event.preRender] ++ (s.paints.take k).map Event.paintRender) = true) ∧
            tail = [Event.postRender]) ∨
           ((¬ ∃ k, ∃ hk : k < s.paints.length,
              env.render (s.paints.get ⟨k, hk⟩)
                (w.trace ++ [Event.preRender] ++ (s.paints.take k).map Event.paintRender) = true) ∧
            tail = [] ∧ res = Result.InsufficientCondition))) := by
  have hloop := renderLoop_rendered env s.paints false (w.log Event.preRender)
  have htrace := renderLoop_trace env s.paints false (w.log Event.preRender)
  have hlog : (w.log Event.preRender).trace = w.trace ++ [Event.preRender] := rfl
  rw [hlog] at hloop htrace
  have h1 : ¬ (s.status = Status.Drawing ∨ s.paints = []) := by
    rintro (h | h)
    · exact hs h
    · exact hp h
  unfold Impl.draw
  rw [if_neg h1, hr]
  by_cases h2 : env.preRender w.trace = false
  · simp only [if_pos h2]
    refine ⟨_, _, _, rfl, fun _ => ⟨rfl, rfl⟩, ?_⟩
    intro h
    rw [h2] at h
    cases h
  · simp only [if_neg h2]
    by_cases h3 : (renderLoop env s.paints false (w.log Event.preRender)).1 = false
    · simp only [if_pos h3]
      refine ⟨_, _, _, rfl, fun h => absurd h h2, fun _ => ⟨[], ?_, Or.inr ⟨?_, rfl, rfl⟩⟩⟩
      · rw [htrace]
        simp
      · intro hk
        have := hloop.mpr (Or.inr hk)
        rw [h3] at this
        cases this
    · simp only [if_neg h3]
      have h3t : (renderLoop env s.paints false (w.log Event.preRender)).1 = true := by
        simpa using h3
      have hk := hloop.mp h3t
      have hk : ∃ k, ∃ hk : k < s.paints.length,
          env.render (s.paints.get ⟨k, hk⟩)
            (w.trace ++ [Event.preRender] ++ (s.paints.take k).map Event.paintRender) = true := by
        rcases hk with h | h
        · cases h
        · exact h
      by_cases h4 : env.postRender
          (renderLoop env s.paints false (w.log Event.preRender)).2.trace = false
      · simp only [if_pos h4]
        refine ⟨_, _, _, rfl, fun h => absurd h h2,
          fun _ => ⟨[Event.postRender], ?_, Or.inl ⟨hk, rfl⟩⟩⟩
        exact congrArg (fun t => t ++ [Event.postRender]) htrace
      · simp only [if_neg h4]
        refine ⟨_, _, _, rfl, fun h => absurd h h2,
          fun _ => ⟨[Event.postRender], ?_, Or.inl ⟨hk, rfl⟩⟩⟩
        exact congrArg (fun t => t ++ [Event.postRender]) htrace

/-! ## Sequences of calls -/

/-- With a backend attached every call returns. -/
theorem step_returns (env : Env) (s : Impl) (w : World) (op : Op) (hr : s.renderer ≠ none) :
    ∃ res s1 w1, s.step env w op = some (res, s1, w1) := by
  have hds := draw_sync_return env s w hr
  cases op with
  | push p => exact ⟨_, _, _, rfl⟩
  | clear a b => exact ⟨_, _, _, rfl⟩
  | update p f => exact ⟨_, _, _, rfl⟩
  | draw =>
    obtain ⟨⟨r0, s0, w0⟩, h⟩ := Option.isSome_iff_exists.mp hds.1
    exact ⟨some r0, s0, w0, by simp [Impl.step, h]⟩
  | sync =>
    obtain ⟨⟨r0, s0, w0⟩, h⟩ := Option.isSome_iff_exists.mp hds.2
    exact ⟨some r0, s0, w0, by simp [Impl.step, h]⟩
  | needRefresh => exact ⟨_, _, _, rfl⟩

/-- What one call does to the controller, case by case: the result, and the
controller after the call. -/
theorem step_state_cases (env : Env) (s : Impl) (w : World) (op : Op) (res : Option Result)
    (s1 : Impl) (w1 : World) (h : s.step env w op = some (res, s1, w1)) :
    (∃ q, op = Op.push (some q) ∧ res = some Result.Success ∧ s.status ≠ Status.Drawing ∧
      s1 = { s with paints := s.paints ++ [q], status := Status.Updating }) ∨
    (∃ a b, op = Op.clear a b ∧ res = some Result.Success ∧ s.status ≠ Status.Drawing ∧
      s1 = { s with paints := if a = true then [] else s.paints }) ∨
    (∃ p f, op = Op.update p f ∧ res = some Result.Success ∧ s.status ≠ Status.Drawing ∧
      s.paints ≠ [] ∧
      s1 = { s with status := Status.Updating, refresh := if p = none then false else s.refresh }) ∨
    (op = Op.draw ∧ res = some Result.Success ∧ s.status ≠ Status.Drawing ∧ s.paints ≠ [] ∧
      s1 = { s with status := Status.Drawing }) ∨
    (op = Op.sync ∧ res = some Result.Success ∧ s.status ≠ Status.Synced ∧
      s1 = { s with status := Status.Synced }) ∨
    (op = Op.needRefresh ∧ res = none ∧ s1 = { s with refresh := true }) ∨
    (op ≠ Op.needRefresh ∧ (∃ r0, res = some r0 ∧ r0 ≠ Result.Success) ∧ s1 = s) := by
  cases op with
  | push p =>
    simp only [Impl.step, Option.some.injEq, Prod.mk.injEq] at h
    obtain ⟨rfl, rfl, -⟩ := h
    rcases push_state_cases s w p with ⟨hres, hd, q, rfl, hq⟩ | ⟨hres, hq⟩
    · exact Or.inl ⟨q, rfl, by rw [hres], hd, hq⟩
    · exact Or.inr (Or.inr (Or.inr (Or.inr (Or.inr (Or.inr
        ⟨by simp, ⟨_, rfl, hres⟩, hq⟩)))))
  | clear a b =>
    simp only [Impl.step, Option.some.injEq, Prod.mk.injEq] at h
    obtain ⟨rfl, rfl, -⟩ := h
    rcases clear_state_cases env s w a b with ⟨hres, hd, hq⟩ | ⟨hres, hq⟩
    · exact Or.inr (Or.inl ⟨a, b, rfl, by rw [hres], hd, hq⟩)
    · exact Or.inr (Or.inr (Or.inr (Or.inr (Or.inr (Or.inr
        ⟨by simp, ⟨_, rfl, hres⟩, hq⟩)))))
  | update p f =>
    simp only [Impl.step, Option.some.injEq, Prod.mk.injEq] at h
    obtain ⟨rfl, rfl, -⟩ := h
    rcases update_state_cases s w p f with ⟨hres, hd, hp, hq⟩ | ⟨hres, hq⟩
    · exact Or.inr (Or.inr (Or.inl ⟨p, f, rfl, by rw [hres], hd, hp, hq⟩))
    · exact Or.inr (Or.inr (Or.inr (Or.inr (Or.inr (Or.inr
        ⟨by simp, ⟨_, rfl, hres⟩, hq⟩)))))
  | draw =>
    simp only [Impl.step, Option.map_eq_some', Prod.mk.injEq] at h
    obtain ⟨⟨r0, s0, w0⟩, hdraw, rfl, rfl, -⟩ := h
    rcases draw_state_cases env s w r0 s0 w0 hdraw with ⟨hres, hd, hp, hq⟩ | ⟨hres, hq⟩
    · exact Or.inr (Or.inr (Or.inr (Or.inl ⟨rfl, by rw [hres], hd, hp, hq⟩)))
    · exact Or.inr (Or.inr (Or.inr (Or.inr (Or.inr (Or.inr
        ⟨by simp, ⟨_, rfl, hres⟩, hq⟩)))))
  | sync =>
    simp only [Impl.step, Option.map_eq_some', Prod.mk.injEq] at h
    obtain ⟨⟨r0, s0, w0⟩, hsync, rfl, rfl, -⟩ := h
    rcases sync_state_cases env s w r0 s0 w0 hsync with ⟨hres, hd, hq⟩ | ⟨hres, hq⟩
    · exact Or.inr (Or.inr (Or.inr (Or.inr (Or.inl ⟨rfl, by rw [hres], hd, hq⟩))))
    · exact Or.inr (Or.inr (Or.inr (Or.inr (Or.inr (Or.inr
        ⟨by simp, ⟨_, rfl, hres⟩, hq⟩)))))
  | needRefresh =>
    simp only [Impl.step, Option.some.injEq, Prod.mk.injEq] at h
    obtain ⟨rfl, rfl, -⟩ := h
    exact Or.inr (Or.inr (Or.inr (Or.inr (Or.inr (Or.inl ⟨rfl, rfl, rfl⟩)))))

/-- No call changes the backend pointer. -/
theorem step_renderer (env : Env) (s : Impl) (w : World) (op : Op) (res : Option Result)
    (s1 : Impl) (w1 : World) (h : s.step env w op = some (res, s1, w1)) :
    s1.renderer = s.renderer := by
  rcases step_state_cases env s w op res s1 w1 h with
    ⟨q, -, -, -, rfl⟩ | ⟨a, b, -, -, -, rfl⟩ | ⟨p, f, -, -, -, -, rfl⟩ | ⟨-, -, -, -, rfl⟩ |
    ⟨-, -, -, rfl⟩ | ⟨-, -, rfl⟩ | ⟨-, -, rfl⟩ <;> rfl

/-- The paint list after a call is the list before it, changed as the history
entry of the call says. -/
theorem step_recordPaint (env : Env) (s : Impl) (w : World) (op : Op) (res : Option Result)
    (s1 : Impl) (w1 : World) (h : s.step env w op = some (res, s1, w1)) :
    recordPaint s.paints (op, res) = s1.paints := by
  rcases step_state_cases env s w op res s1 w1 h with
    ⟨q, rfl, rfl, -, rfl⟩ | ⟨a, b, rfl, rfl, -, rfl⟩ | ⟨p, f, rfl, rfl, -, -, rfl⟩ |
    ⟨rfl, rfl, -, -, rfl⟩ | ⟨rfl, rfl, -, rfl⟩ | ⟨rfl, rfl, rfl⟩ | ⟨-, ⟨r0, rfl, hr0⟩, rfl⟩
  · rfl
  · cases a <;> rfl
  · rfl
  · rfl
  · rfl
  · rfl
  · cases r0 with
    | Success => exact absurd rfl hr0
    | InsufficientCondition =>
      cases op with
      | push p => cases p <;> rfl
      | clear a b => cases a <;> rfl
      | update p f => rfl
      | draw => rfl
      | sync => rfl
      | needRefresh => rfl
    | MemoryCorruption =>
      cases op with
      | push p => cases p <;> rfl
      | clear a b => cases a <;> rfl
      | update p f => rfl
      | draw => rfl
      | sync => rfl
      | needRefresh => rfl

/-- A call keeps the property that a drawing controller has a paint. -/
theorem step_drawing_has_paint (env : Env) (s : Impl) (w : World) (op : Op)
    (res : Option Result) (s1 : Impl) (w1 : World) (h : s.step env w op = some (res, s1, w1))
    (hinv : s.status = Status.Drawing → s.paints ≠ []) :
    s1.status = Status.Drawing → s1.paints ≠ [] := by
  rcases step_state_cases env s w op res s1 w1 h with
    ⟨q, -, -, -, rfl⟩ | ⟨a, b, -, -, hd, rfl⟩ | ⟨p, f, -, -, -, -, rfl⟩ | ⟨-, -, -, hp, rfl⟩ |
    ⟨-, -, -, rfl⟩ | ⟨-, -, rfl⟩ | ⟨-, -, rfl⟩
  · intro h1
    cases h1
  · intro h1
    exact absurd h1 hd
  · intro h1
    cases h1
  · intro _
    exact hp
  · intro h1
    cases h1
  · exact hinv
  · exact hinv

/-- From a controller with a backend every sequence of calls returns, and the
backend stays attached. -/
theorem run_returns (env : Env) (ops : List Op) (s : Impl) (w : World)
    (hr : s.renderer ≠ none) :
    ∃ hist s1 w1, run env ops s w = some (hist, s1, w1) ∧ s1.renderer = s.renderer := by
  induction ops generalizing s w with
  | nil => exact ⟨[], s, w, rfl, rfl⟩
  | cons op rest ih =>
    obtain ⟨res, s1, w1, hstep⟩ := step_returns env s w op hr
    have hr1 := step_renderer env s w op res s1 w1 hstep
    obtain ⟨hist, s2, w2, hrun, hr2⟩ := ih s1 w1 (by rw [hr1]; exact hr)
    exact ⟨(op, res) :: hist, s2, w2, by simp [run, hstep, hrun], by rw [hr2, hr1]⟩

/-- A sequence of calls that returns is a first call that returns followed by a
sequence that returns. -/
theorem run_cons_some (env : Env) (op : Op) (rest : List Op) (s : Impl) (w : World)
    (hist : List (Op × Option Result)) (s3 : Impl) (w3 : World)
    (h : run env (op :: rest) s w = some (hist, s3, w3)) :
    ∃ res s2 w2 hist2, s.step env w op = some (res, s2, w2) ∧
      run env rest s2 w2 = some (hist2, s3, w3) ∧ hist = (op, res) :: hist2 := by
  rw [run] at h
  cases hstep : s.step env w op with
  | none => simp [hstep] at h
  | some out =>
    obtain ⟨res, s2, w2⟩ := out
    simp only [hstep] at h
    cases hrun : run env rest s2 w2 with
    | none => simp [hrun] at h
    | some out2 =>
      obtain ⟨hist2, s4, w4⟩ := out2
      simp only [hrun, Option.some.injEq, Prod.mk.injEq] at h
      obtain ⟨rfl, rfl, rfl⟩ := h
      exact ⟨res, s2, w2, hist2, rfl, hrun, rfl⟩

/-- The paint list after a sequence of calls is the list before it, changed entry
by entry as the history says. -/
theorem run_recordPaint (env : Env) (ops : List Op) (s : Impl) (w : World)
    (hist : List (Op × Option Result)) (s1 : Impl) (w1 : World)
    (h : run env ops s w = some (hist, s1, w1)) :
    hist.foldl recordPaint s.paints = s1.paints := by
  induction ops generalizing s w hist with
  | nil =>
    simp only [run, Option.some.injEq, Prod.mk.injEq] at h
    obtain ⟨rfl, rfl, -⟩ := h
    rfl
  | cons op rest ih =>
    obtain ⟨res, s2, w2, hist2, hstep, hrun, rfl⟩ := run_cons_some env op rest s w hist s1 w1 h
    rw [List.foldl_cons, step_recordPaint env s w op res s2 w2 hstep]
    exact ih s2 w2 hist2 hrun

/-- A sequence of calls keeps the property that a drawing controller has a paint. -/
theorem run_drawing_has_paint (env : Env) (ops : List Op) (s : Impl) (w : World)
    (hist : List (Op × Option Result)) (s1 : Impl) (w1 : World)
    (h : run env ops s w = some (hist, s1, w1))
    (hinv : s.status = Status.Drawing → s.paints ≠ []) :
    s1.status = Status.Drawing → s1.paints ≠ [] := by
  induction ops generalizing s w hist with
  | nil =>
    simp only [run, Option.some.injEq, Prod.mk.injEq] at h
    obtain ⟨-, rfl, -⟩ := h
    exact hinv
  | cons op rest ih =>
    obtain ⟨res, s2, w2, hist2, hstep, hrun, rfl⟩ := run_cons_some env op rest s w hist s1 w1 h
    exact ih s2 w2 hist2 hrun (step_drawing_has_paint env s w op res s2 w2 hstep hinv)

/-! ## Render order -/

/-- C14: render order is insertion order.  A controller constructed on a backend
returns from every sequence of calls, and its paint list is then the list of
the paints successfully pushed since the last paint-clearing `clear`, in push
order.  When a `draw` then passes its preconditions (status not `Drawing`, that
list not empty, `preRender` succeeds), the calls it makes after `preRender` are
one render of each of these paints, in push order, whatever the renders answer,
followed by at most a `postRender`. -/
theorem C14_render_order_is_push_order (env : Env) (r : RenderMethod) (w0 : World)
    (ops : List Op) :
    ∃ sc wc hist s w,
      Impl.ctor (some r) w0 = some (sc, wc) ∧ run env ops sc wc = some (hist, s, w) ∧
      s.paints = pushedSinceLastClear hist ∧
      (s.status ≠ Status.Drawing → pushedSinceLastClear hist ≠ [] →
        env.preRender w.trace = true →
        ∃ res s1 w1 tail, s.draw env w = some (res, s1, w1) ∧
          w1.trace = w.trace ++ [Event.preRender]
            ++ (pushedSinceLastClear hist).map Event.paintRender ++ tail ∧
          (tail = [] ∨ tail = [Event.postRender])) := by
  obtain ⟨hist, s, w, hrun, hrend⟩ :=
    run_returns env ops (Impl.mk [] (some r) Status.Synced false) w0.refRenderer (by simp)
  have hpaints : s.paints = pushedSinceLastClear hist :=
    (run_recordPaint env ops _ _ hist s w hrun).symm
  refine ⟨_, _, hist, s, w, rfl, hrun, hpaints, ?_⟩
  intro hs hp hpre
  rw [← hpaints] at hp ⊢
  obtain ⟨res, s1, w1, hdraw, -, htr⟩ := draw_trace_cases env s w r hrend hs hp
  obtain ⟨tail, htail, hcase⟩ := htr hpre
  refine ⟨res, s1, w1, tail, hdraw, htail, ?_⟩
  rcases hcase with ⟨-, h⟩ | ⟨-, h, -⟩
  · exact Or.inr h
  · exact Or.inl h

/-- A worked instance of the render order: after `push(3)`, `push(4)`,
`clear(true, false)`, `push(5)`, a refused `push` of nothing, `push(6)`, the
history gives the paints 5 and 6, and a `draw` renders 5 then 6. -/
theorem render_order_example :
    (run envAllTrue
        [Op.push (some 3), Op.push (some 4), Op.clear true false, Op.push (some 5),
          Op.push none, Op.push (some 6)]
        (Impl.mk [] (some 1) Status.Synced false) world0).map
        (fun x => (pushedSinceLastClear x.1, x.2.1.paints))
      = some ([5, 6], [5, 6]) ∧
    (run envAllTrue
        [Op.push (some 3), Op.push (some 4), Op.clear true false, Op.push (some 5),
          Op.push none, Op.push (some 6), Op.draw]
        (Impl.mk [] (some 1) Status.Synced false) world0).map
        (fun x => x.2.2.trace.filter
          (fun e => match e with
            | Event.preRender => true
            | Event.paintRender _ => true
            | Event.postRender => true
            | _ => false))
      = some [Event.preRender, Event.paintRender 5, Event.paintRender 6, Event.postRender] := by
  constructor <;> decide

/-! ## Reachable controllers -/

/-- C17: a controller constructed on a backend returns from every sequence of
`push`, `clear`, `update`, `draw`, `sync` and `needRefresh` calls, whatever the
backend and the paints answer, and in the controller it ends in, status
`Drawing` implies a non-empty paint list. -/
theorem C17_drawing_implies_paints (env : Env) (r : RenderMethod) (w0 : World)
    (ops : List Op) :
    ∃ sc wc hist s w,
      Impl.ctor (some r) w0 = some (sc, wc) ∧ run env ops sc wc = some (hist, s, w) ∧
      (s.status = Status.Drawing → s.paints ≠ []) := by
  obtain ⟨hist, s, w, hrun, -⟩ :=
    run_returns env ops (Impl.mk [] (some r) Status.Synced false) w0.refRenderer (by simp)
  refine ⟨_, _, hist, s, w, rfl, hrun, ?_⟩
  apply run_drawing_has_paint env ops _ _ hist s w hrun
  intro h
  cases h

/-! ## Construction and destruction -/

/-- C15: construction on a backend calls the backend's `ref` once and nothing
else, so the backend's counter is one more than before, and whatever calls
follow, the controller keeps that backend attached.  Destruction of a
controller with its backend attached, whatever its status, first calls the
backend's `sync`, then releases the paints (only `unref` and `delete` of owned
paints, one `unref` per occurrence, a `delete` exactly for the owned paints whose
counter ends at zero) and empties the list, and last calls the backend's
`unref` once, followed by the destruction of the backend exactly when the count
it returned is zero.  So no release of a paint or of the backend comes before
the `sync`. -/
theorem C15_teardown_order (env : Env) (ops : List Op) (s : Impl) (w w0 : World)
    (r : RenderMethod) (hr : s.renderer = some r) :
    (∃ sc wc, Impl.ctor (some r) w0 = some (sc, wc) ∧ sc.renderer = some r ∧
      wc.trace = w0.trace ++ [Event.rendererRef] ∧
      wc.rendererRefCnt = w0.rendererRefCnt + 1 ∧ wc.paintRefCnt = w0.paintRefCnt ∧
      ∃ hist s2 w2, run env ops sc wc = some (hist, s2, w2) ∧ s2.renderer = some r) ∧
    (s.dtor w).rendererRefCnt = w.rendererRefCnt - 1 ∧
    (∀ p, (s.dtor w).paintRefCnt p = w.paintRefCnt p - s.paints.count p) ∧
    (s.clearPaints (w.log Event.rendererSync)).1.paints = [] ∧
    ∃ released : List Event,
      (s.dtor w).trace = w.trace ++ [Event.rendererSync] ++ released ++
        (if w.rendererRefCnt - 1 = 0 then [Event.rendererUnref, Event.rendererDelete]
         else [Event.rendererUnref]) ∧
      (∀ e ∈ released, ∃ p ∈ s.paints, e = Event.paintUnref p ∨ e = Event.paintDelete p) ∧
      (∀ p, released.count (Event.paintUnref p) = s.paints.count p) ∧
      (∀ p, Event.paintDelete p ∈ released ↔
        (p ∈ s.paints ∧ w.paintRefCnt p - s.paints.count p = 0)) := by
  have hcnt := clearPaintsLoop_rendererRefCnt s.paints (w.log Event.rendererSync)
  have hlogc : (w.log Event.rendererSync).rendererRefCnt = w.rendererRefCnt := rfl
  rw [hlogc] at hcnt
  obtain ⟨rel, htr, hev, hun, hdel⟩ := clearPaintsLoop_trace s.paints (w.log Event.rendererSync)
  have hlogt : (w.log Event.rendererSync).trace = w.trace ++ [Event.rendererSync] := rfl
  have hlogp : (w.log Event.rendererSync).paintRefCnt = w.paintRefCnt := rfl
  rw [hlogt] at htr
  rw [hlogp] at hdel
  have hpc : ∀ p, (clearPaintsLoop s.paints (w.log Event.rendererSync)).paintRefCnt p
      = w.paintRefCnt p - s.paints.count p := fun p =>
    clearPaintsLoop_paintRefCnt s.paints (w.log Event.rendererSync) p
  have hd : s.dtor w =
      if w.rendererRefCnt - 1 = 0 then
        ((clearPaintsLoop s.paints (w.log Event.rendererSync)).unrefRenderer).2.log
          Event.rendererDelete
      else ((clearPaintsLoop s.paints (w.log Event.rendererSync)).unrefRenderer).2 := by
    unfold Impl.dtor
    rw [hr]
    simp only [Impl.clearPaints, World.unrefRenderer, hcnt]
  have hrun := run_returns env ops (Impl.mk [] (some r) Status.Synced false) w0.refRenderer
    (by simp)
  refine ⟨⟨_, _, rfl, rfl, rfl, rfl, rfl, hrun⟩, ?_, ?_, rfl, rel, ?_, hev, hun, hdel⟩
  · rw [hd]
    by_cases hz : w.rendererRefCnt - 1 = 0
    · rw [if_pos hz]
      exact congrArg (fun n => n - 1) hcnt
    · rw [if_neg hz]
      exact congrArg (fun n => n - 1) hcnt
  · intro p
    rw [hd]
    by_cases hz : w.rendererRefCnt - 1 = 0
    · rw [if_pos hz]
      exact hpc p
    · rw [if_neg hz]
      exact hpc p
  · rw [hd]
    by_cases hz : w.rendererRefCnt - 1 = 0
    · rw [if_pos hz, if_pos hz]
      show (clearPaintsLoop s.paints (w.log Event.rendererSync)).trace
        ++ [Event.rendererUnref] ++ [Event.rendererDelete] = _
      rw [htr]
      simp
    · rw [if_neg hz, if_neg hz]
      show (clearPaintsLoop s.paints (w.log Event.rendererSync)).trace
        ++ [Event.rendererUnref] = _
      rw [htr]

/-- C15 at a drawing controller holding paint 3 (held once) and paint 4 (held
twice) on a backend held once: sync, release of the paints, release and
destruction of the backend, in this order. -/
theorem C15_teardown_order_witness :
    (Impl.mk [3, 4] (some 1) Status.Drawing false).renderer = some 1 ∧
    ((Impl.mk [3, 4] (some 1) Status.Drawing false).dtor worldHeld).rendererRefCnt
      = worldHeld.rendererRefCnt - 1 ∧
    ((Impl.mk [3, 4] (some 1) Status.Drawing false).dtor worldHeld).trace
      = [Event.rendererSync, Event.paintUnref 3, Event.paintDelete 3, Event.paintUnref 4,
          Event.rendererUnref, Event.rendererDelete] :=
  ⟨rfl,
   (C15_teardown_order envAllTrue [Op.push (some 3)]
      (Impl.mk [3, 4] (some 1) Status.Drawing false) worldHeld world0 1 rfl).2.1,
   by decide⟩

/-! ## The refresh flag -/

/-- C16: `needRefresh()` sets the refresh flag in every state, `Drawing` included,
and leaves paint list, status and backend pointer as they were; a successful
whole-scene `update(none, force)` unsets the flag; a failed update, every
single-paint `update(p, force)`, `push`, `clear`, `draw` and `sync` leave the
flag exactly as it was (`draw` and `sync` returning whenever a backend is
attached). -/
theorem C16_refresh_flag_changes (env : Env) (s : Impl) (w : World) (paint : Option Paint)
    (force cp cb : Bool) :
    (s.needRefresh.refresh = true ∧ s.needRefresh.paints = s.paints ∧
      s.needRefresh.status = s.status ∧ s.needRefresh.renderer = s.renderer) ∧
    ((s.update w none force).1 = Result.Success → (s.update w none force).2.1.refresh = false) ∧
    ((s.update w paint force).1 ≠ Result.Success →
      (s.update w paint force).2.1.refresh = s.refresh) ∧
    (∀ p, (s.update w (some p) force).2.1.refresh = s.refresh) ∧
    (s.push w paint).2.1.refresh = s.refresh ∧
    (s.clear env w cp cb).2.1.refresh = s.refresh ∧
    (∀ res s1 w1, s.draw env w = some (res, s1, w1) → s1.refresh = s.refresh) ∧
    (∀ res s1 w1, s.sync env w = some (res, s1, w1) → s1.refresh = s.refresh) ∧
    (s.renderer ≠ none → (s.draw env w).isSome = true ∧ (s.sync env w).isSome = true) := by
  refine ⟨⟨rfl, rfl, rfl, rfl⟩, ?_, ?_, ?_, ?_, ?_, ?_, ?_, draw_sync_return env s w⟩
  · intro h
    rcases update_state_cases s w none force with ⟨-, -, -, hq⟩ | ⟨hn, -⟩
    · rw [hq]
      simp
    · exact absurd h hn
  · intro h
    rcases update_state_cases s w paint force with ⟨hres, -⟩ | ⟨-, hq⟩
    · exact absurd hres h
    · rw [hq]
  · intro p
    rcases update_state_cases s w (some p) force with ⟨-, -, -, hq⟩ | ⟨-, hq⟩
    · rw [hq]
      simp
    · rw [hq]
  · rcases push_state_cases s w paint with ⟨-, -, q, -, hq⟩ | ⟨-, hq⟩
    · rw [hq]
    · rw [hq]
  · rcases clear_state_cases env s w cp cb with ⟨-, -, hq⟩ | ⟨-, hq⟩
    · rw [hq]
    · rw [hq]
  · intro res s1 w1 h
    rcases draw_state_cases env s w res s1 w1 h with ⟨-, -, -, hq⟩ | ⟨-, hq⟩
    · rw [hq]
    · rw [hq]
  · intro res s1 w1 h
    rcases sync_state_cases env s w res s1 w1 h with ⟨-, -, hq⟩ | ⟨-, hq⟩
    · rw [hq]
    · rw [hq]

/-! ## The update made by push -/

/-- C18: for every successful `push`, a paint `p` was given, and the calls made
are `ref` on `p` followed by one update of `p` carrying the flag `All`, whether
the refresh flag was set or not; the refresh flag after the push is the one
before it. -/
theorem C18_push_forces_full_update (s : Impl) (w : World) (paint : Option Paint)
    (h : (s.push w paint).1 = Result.Success) :
    ∃ p, paint = some p ∧
      (s.push w paint).2.2.trace
        = w.trace ++ [Event.paintRef p, Event.paintUpdate p 255 RenderUpdateFlag.All] ∧
      (s.push w paint).2.1.refresh = s.refresh := by
  by_cases hd : s.status = Status.Drawing
  · simp [Impl.push, hd] at h
  · cases paint with
    | none => simp [Impl.push, hd] at h
    | some p =>
      refine ⟨p, rfl, ?_, ?_⟩
      · simp [Impl.push, Impl.update, hd, World.log, World.refPaint]
      · simp [Impl.push, Impl.update, hd]

/-- C18 at a `Synced` controller holding paint 3 with the refresh flag unset and
at one with the flag set, pushing paint 9: the update of 9 carries `All` in
both, and the set flag stays set. -/
theorem C18_push_forces_full_update_witness :
    ((Impl.mk [3] (some 1) Status.Synced true).push world0 (some 9)).1 = Result.Success ∧
    (∃ p, some 9 = some p ∧
      ((Impl.mk [3] (some 1) Status.Synced true).push world0 (some 9)).2.2.trace
        = world0.trace ++ [Event.paintRef p, Event.paintUpdate p 255 RenderUpdateFlag.All] ∧
      ((Impl.mk [3] (some 1) Status.Synced true).push world0 (some 9)).2.1.refresh
        = (Impl.mk [3] (some 1) Status.Synced true).refresh) ∧
    ((Impl.mk [3] (some 1) Status.Synced false).push world0 (some 9)).2.2.trace
      = [Event.paintRef 9, Event.paintUpdate 9 255 RenderUpdateFlag.All] :=
  ⟨rfl,
   C18_push_forces_full_update (Impl.mk [3] (some 1) Status.Synced true) world0 (some 9) rfl,
   by decide⟩

/-! ## The backend calls of draw -/

/-- C19: on a controller with a backend, status not `Drawing` and a non-empty
paint list, `draw` returns and its calls are: `preRender` once, first; when
`preRender` fails nothing more (no render, no `postRender`) and the result is
`InsufficientCondition`; when `preRender` succeeds one render of every owned
paint in list order, followed by one `postRender` exactly when some render
answered true; when no render answered true there is no `postRender` and the
result is `InsufficientCondition`. -/
theorem C19_draw_backend_calls (env : Env) (s : Impl) (w : World) (r : RenderMethod)
    (hr : s.renderer = some r) (hs : s.status ≠ Status.Drawing) (hp : s.paints ≠ []) :
    ∃ res s1 w1, s.draw env w = some (res, s1, w1) ∧
      (env.preRender w.trace = false →
        w1.trace = w.trace ++ [Event.preRender] ∧ res = Result.InsufficientCondition) ∧
      (env.preRender w.trace = true →
        ∃ tail, w1.trace = w.trace ++ [Event.preRender] ++ s.paints.map Event.paintRender ++ tail ∧
          (((∃ k, ∃ hk : k < s.paints.length,
              env.render (s.paints.get ⟨k, hk⟩)
                (w.trace ++ [Event.preRender] ++ (s.paints.take k).map Event.paintRender) = true) ∧
            tail = [Event.postRender]) ∨
           ((¬ ∃ k, ∃ hk : k < s.paints.length,
              env.render (s.paints.get ⟨k, hk⟩)
                (w.trace ++ [Event.preRender] ++ (s.paints.take k).map Event.paintRender) = true) ∧
            tail = [] ∧ res = Result.InsufficientCondition))) ∧
      w1.paintRefCnt = w.paintRefCnt ∧ w1.rendererRefCnt = w.rendererRefCnt := by
  obtain ⟨res, s1, w1, hdraw, h1, h2⟩ := draw_trace_cases env s w r hr hs hp
  refine ⟨res, s1, w1, hdraw, h1, h2, ?_⟩
  have hpc := renderLoop_paintRefCnt env s.paints false (w.log Event.preRender)
  have hrc := renderLoop_rendererRefCnt env s.paints false (w.log Event.preRender)
  have hc : ¬ (s.status = Status.Drawing ∨ s.paints = []) := by
    rintro (h | h)
    · exact hs h
    · exact hp h
  unfold Impl.draw at hdraw
  rw [if_neg hc, hr] at hdraw
  dsimp only at hdraw
  split at hdraw
  · simp only [Option.some.injEq, Prod.mk.injEq] at hdraw
    obtain ⟨-, -, rfl⟩ := hdraw
    exact ⟨rfl, rfl⟩
  · split at hdraw
    · simp only [Option.some.injEq, Prod.mk.injEq] at hdraw
      obtain ⟨-, -, rfl⟩ := hdraw
      exact ⟨hpc, hrc⟩
    · split at hdraw
      · simp only [Option.some.injEq, Prod.mk.injEq] at hdraw
        obtain ⟨-, -, rfl⟩ := hdraw
        exact ⟨hpc, hrc⟩
      · simp only [Option.some.injEq, Prod.mk.injEq] at hdraw
        obtain ⟨-, -, rfl⟩ := hdraw
        exact ⟨hpc, hrc⟩

/-- C19 at a controller in status `Updating` holding paints 3 and 4 whose renders
produce nothing: `preRender`, both renders, no `postRender`, and the result is
`InsufficientCondition`. -/
theorem C19_draw_backend_calls_witness :
    (Impl.mk [3, 4] (some 1) Status.Updating false).renderer = some 1 ∧
    (Impl.mk [3, 4] (some 1) Status.Updating false).status ≠ Status.Drawing ∧
    (Impl.mk [3, 4] (some 1) Status.Updating false).paints ≠ [] ∧
    (∃ res s1 w1,
      (Impl.mk [3, 4] (some 1) Status.Updating false).draw envNoOutput world0
        = some (res, s1, w1) ∧
      w1.paintRefCnt = world0.paintRefCnt ∧ w1.rendererRefCnt = world0.rendererRefCnt) ∧
    ((Impl.mk [3, 4] (some 1) Status.Updating false).draw envNoOutput world0).map
        (fun x => (x.1, x.2.2.trace))
      = some (Result.InsufficientCondition,
          [Event.preRender, Event.paintRender 3, Event.paintRender 4]) :=
  ⟨rfl, by decide, by decide,
   (C19_draw_backend_calls envNoOutput (Impl.mk [3, 4] (some 1) Status.Updating false) world0 1
      rfl (by decide) (by decide)).imp
     (fun _ h => h.imp (fun _ h => h.imp (fun _ h => ⟨h.1, h.2.2.2⟩))),
   by decide⟩

end Canvas
